import Mathlib

/-!
Verification development for the CredTech credit-scoring platform.

Shallow Lean embeddings of the Python components whose behaviour the
specification's claims concern, with theorems settling each claim:

* `src/utils/security.py` — `SecurityManager.verify_password`
* `src/utils/metrics.py` — `ks_stat`
* `src/model/registry.py` — `ModelRegistry` (experiments, routing)
* `src/utils/streamlit_auth.py` — user store (`delete_user`, `update_user`)
* `src/features/processor.py` — `FeatureProcessor`
* `src/model/trainer.py` — `CreditScoreModel.explain_instance` / `predict`
* `src/serve/api.py` — `batch_score_credit`
* `src/utils/validation.py` — `validate_credit_score_input`

Machine floats are modelled by `ℚ`; Python exceptions by `Except`;
external libraries (hashlib, pandas date accessors, sklearn, lightgbm,
shap) by explicit function parameters standing for their documented
behaviour.
-/

namespace CredTech

/-! ## Python string primitives -/

namespace Py

/-- Splitting a character list at every occurrence of `c`
(`n` occurrences yield `n + 1` parts, as in Python). -/
def splitCharList (c : Char) : List Char → List (List Char)
  | [] => [[]]
  | x :: xs =>
    if x = c then [] :: splitCharList c xs
    else
      match splitCharList c xs with
      | h :: t => (x :: h) :: t
      | [] => [[x]]

/-- Model of Python's `str.split(sep)` for a one-character separator. -/
def split (sep : Char) (s : String) : List String :=
  (splitCharList sep s.data).map (fun l => String.mk l)

/-- Model of `not value.strip()` for a string: `str.strip()` is empty
exactly when every character is whitespace. -/
def stripIsEmpty (s : String) : Bool := s.data.all Char.isWhitespace

end Py

/-! ## Security (`src/utils/security.py`) -/

namespace Security

/-- Body of `SecurityManager.verify_password` before the `except` clause.
The statement `salt, hash_value = hashed.split('$')` raises `ValueError`
unless the split yields exactly two parts; `hashlib.pbkdf2_hmac` followed
by `.hex()` is external and modelled by the parameter `pbkdf2Hex`
(password and salt to hex digest). -/
def verifyPasswordBody (pbkdf2Hex : String → String → String)
    (password hashed : String) : Except String Bool :=
  match Py.split '$' hashed with
  | [salt, hashValue] => .ok (pbkdf2Hex password salt == hashValue)
  | _ => .error "ValueError: unpacking requires exactly two parts"

/-- Embedding of `SecurityManager.verify_password`: the `try`/`except
Exception: return False` wrapper around `verifyPasswordBody`. -/
def verify_password (pbkdf2Hex : String → String → String)
    (password hashed : String) : Bool :=
  match verifyPasswordBody pbkdf2Hex password hashed with
  | .ok b => b
  | .error _ => false

end Security

/-! ## Evaluation metrics (`src/utils/metrics.py`) -/

namespace Metrics

/-- Running prefix sums starting from `acc`; `cumSums` below models
`np.cumsum` (entry `i` is the sum of entries `0..i`). -/
def cumSumsFrom (acc : ℚ) : List ℚ → List ℚ
  | [] => []
  | x :: xs => (acc + x) :: cumSumsFrom (acc + x) xs

/-- Model of `np.cumsum` on a rational list. -/
def cumSums (l : List ℚ) : List ℚ := cumSumsFrom 0 l

/-- Model of `np.max` over a (nonempty in all uses) array. -/
def npMax (l : List ℚ) : ℚ := l.foldl max (l.headD 0)

/-- Models `order = np.argsort(y_score)` followed by
`y = np.array(y_true)[order]`: the labels reordered so that their
scores are ascending.  `np.argsort` leaves the relative order of tied
scores unspecified; a stable merge sort is one admissible ordering, and
every theorem below is insensitive to the tie order. -/
def labelsByScore (yTrue yScore : List ℚ) : List ℚ :=
  ((yScore.zip yTrue).mergeSort (fun a b => decide (a.1 ≤ b.1))).map (·.2)

/-- Embedding of `ks_stat` from `src/utils/metrics.py`: sort labels by
score; return `0.0` when either class is absent (`y.sum()==0` or
`len(y)-y.sum()==0`); otherwise the maximum absolute gap between the
cumulative positive-rate and cumulative negative-rate curves. -/
def ks_stat (yTrue yScore : List ℚ) : ℚ :=
  let y := labelsByScore yTrue yScore
  let s := y.sum
  let n := (y.length : ℚ) - s
  if s = 0 ∨ n = 0 then 0
  else
    let cumPos := (cumSums y).map (· / s)
    let cumNeg := (cumSums (y.map (fun v => 1 - v))).map (· / n)
    npMax (List.zipWith (fun a b => |a - b|) cumPos cumNeg)

end Metrics

/-! ## Model registry (`src/model/registry.py`) -/

namespace Registry

/-- Metadata stored for a registered model (`model_info` dict in
`register_model`); fields not read by any claim are kept as strings. -/
structure ModelInfo where
  name : String
  version : String
  description : String
  createdAt : String
  filePath : String
  status : String
  deriving Repr, DecidableEq

/-- Metadata stored for an experiment (`experiment_info` dict in
`create_experiment`). -/
structure ExperimentInfo where
  id : String
  name : String
  description : String
  modelVariants : List (String × ℚ)
  createdAt : String
  status : String
  deriving Repr, DecidableEq

/-- The `registry` dict persisted in `registry.json`: key-value maps are
modelled as insertion-ordered association lists (Python dicts preserve
insertion order). -/
structure RegistryState where
  models : List (String × ModelInfo)
  production : Option String
  experiments : List (String × ExperimentInfo)
  defaultTrafficSplit : List (String × ℚ)
  deriving Repr, DecidableEq

/-- Model of `np.isclose(a, b)` with the NumPy defaults
`rtol=1e-5`, `atol=1e-8`: `|a - b| <= atol + rtol * |b|`. -/
def npIsClose (a b : ℚ) : Prop :=
  |a - b| ≤ 1 / 100000000 + (1 / 100000) * |b|

instance (a b : ℚ) : Decidable (npIsClose a b) := by
  unfold npIsClose; infer_instance

/-- Embedding of `ModelRegistry.create_experiment`.  `uuid.uuid4()` and
`datetime.now()` are external; the generated id and timestamp are passed
in as `freshId` and `createdAt`.  Returns the experiment id (`""` on
rejection) together with the updated registry state. -/
def create_experiment (reg : RegistryState) (name : String)
    (modelVariants : List (String × ℚ)) (description : String)
    (freshId createdAt : String) : String × RegistryState :=
  let totalPercentage := (modelVariants.map Prod.snd).sum
  if ¬ npIsClose totalPercentage 100 then ("", reg)
  else if modelVariants.any (fun v => ! reg.models.any (fun m => decide (m.1 = v.1))) then
    ("", reg)
  else
    let experimentInfo : ExperimentInfo :=
      { id := freshId, name := name, description := description,
        modelVariants := modelVariants, createdAt := createdAt,
        status := "active" }
    (freshId,
     { reg with
        experiments := reg.experiments ++ [(freshId, experimentInfo)],
        defaultTrafficSplit := modelVariants })

/-- The `for model_id, percentage in traffic_split.items()` loop of
`get_model_for_request`: walk the split in insertion order accumulating
percentages; return the first variant whose cumulative total exceeds the
bucket, or `none` when the walk exhausts. -/
def walkSplit (bucket : ℚ) : ℚ → List (String × ℚ) → Option String
  | _, [] => none
  | cumulative, (modelId, percentage) :: rest =>
    if bucket < cumulative + percentage then some modelId
    else walkSplit bucket (cumulative + percentage) rest

/-- Embedding of `ModelRegistry.get_model_for_request`.  Python's
built-in `hash` on strings is deterministic within a process and is
modelled by the parameter `hashFn`; `np.random.randint(0, 100)` (used
only when no request id is given, or the id is falsy, i.e. `""`) is
modelled by the draw `randBucket`.  Python `% 100` on a possibly
negative hash is Euclidean, matching `Int.emod`. -/
def get_model_for_request (reg : RegistryState) (hashFn : String → ℤ)
    (requestId : Option String) (randBucket : ℤ) : Option String :=
  if reg.defaultTrafficSplit = [] then reg.production
  else
    let hashValue : ℤ :=
      match requestId with
      | some rid => if rid ≠ "" then hashFn rid % 100 else randBucket
      | none => randBucket
    match walkSplit (hashValue : ℚ) 0 reg.defaultTrafficSplit with
    | some modelId => some modelId
    | none => reg.production

/-- Cumulative traffic totals of a split, written as the spec describes
them (used to state the routing claim's characterisation). -/
def specCumTotals (split : List (String × ℚ)) : List ℚ :=
  Metrics.cumSums (split.map Prod.snd)

/-- The spec's description of routing (§4.8): walk the traffic-split map
in insertion order and return the first variant whose cumulative total
the bucket falls under, falling back to the production model id when the
walk exhausts. -/
def specRoute (bucket : ℚ) (split : List (String × ℚ))
    (production : Option String) : Option String :=
  match (split.zip (specCumTotals split)).find? (fun p => decide (bucket < p.2)) with
  | some p => some p.1.1
  | none => production

/-- Modelled from the spec: `ModelRegistry.stop_experiment` is absent
from `src/src/model/registry.py` — only the model-manager CLI
(`scripts/model_manager_cli.py`, which expects a boolean result) and the
test suite invoke it.  Per §4.8 of the spec it marks the experiment's
status `"stopped"` and succeeds, leaving `default_traffic_split` (and
everything else in the registry) in place. -/
def stop_experiment (reg : RegistryState) (experimentId : String) :
    Bool × RegistryState :=
  if reg.experiments.any (fun e => decide (e.1 = experimentId)) then
    (true,
     { reg with
        experiments := reg.experiments.map (fun e =>
          if e.1 = experimentId then (e.1, { e.2 with status := "stopped" })
          else e) })
  else (false, reg)

end Registry

/-! ## Dashboard user store (`src/utils/streamlit_auth.py`) -/

namespace Auth

/-- A `UserAccount` record as stored in `users.json`; the password hash
dict produced by `secure_hash` is opaque to the claims and kept as a
string. -/
structure UserRecord where
  username : String
  passwordHash : String
  fullName : String
  email : String
  role : String
  createdAt : String
  lastLogin : Option String
  deriving Repr, DecidableEq

/-- The user database: a username-keyed dict, modelled as an
insertion-ordered association list with distinct keys. -/
abbrev UserStore := List (String × UserRecord)

/-- The admin count computed inside `delete_user`:
`sum(1 for user in users.values() if user["role"] == "admin")`. -/
def adminCount (users : UserStore) : Nat :=
  (users.filter (fun u => u.2.role = "admin")).length

/-- Embedding of `delete_user`: reject an unknown username; reject
deleting an admin when at most one admin exists; otherwise remove the
entry and save.  Returns the success flag and the resulting store. -/
def delete_user (users : UserStore) (username : String) :
    Bool × UserStore :=
  match users.lookup username with
  | none => (false, users)
  | some u =>
    if u.role = "admin" ∧ adminCount users ≤ 1 then (false, users)
    else (true, users.filter (fun p => p.1 ≠ username))

/-- The field updates `update_user` applies to an existing record
(each `if ... is not None` assignment). -/
def applyUserUpdates (u : UserRecord)
    (fullName email role : Option String) : UserRecord :=
  let u1 := match fullName with | some f => { u with fullName := f } | none => u
  let u2 := match email with | some e => { u1 with email := e } | none => u1
  match role with | some r => { u2 with role := r } | none => u2

/-- Embedding of `update_user`: reject an unknown username, otherwise
assign whichever of `full_name`, `email`, `role` were supplied and save.
There is no admin-count guard in this function. -/
def update_user (users : UserStore) (username : String)
    (fullName email role : Option String) : Bool × UserStore :=
  if (users.lookup username).isSome then
    (true,
     users.map (fun p =>
       if p.1 = username then (p.1, applyUserUpdates p.2 fullName email role)
       else p))
  else (false, users)

end Auth

/-! ## Feature engineering (`src/features/processor.py`) -/

namespace Features

/-- A cell of a pandas table: a float, a string, or an opaque datetime
(dates quotient to an integer day index, enough for the comparisons and
windows the code performs). -/
inductive Cell where
  | num (q : ℚ)
  | str (s : String)
  | date (d : ℤ)
  deriving Repr, DecidableEq

/-- Numeric view of a cell (cells read arithmetically are numeric in
every execution the claims range over). -/
def Cell.asNum : Cell → ℚ
  | .num q => q
  | _ => 0

/-- String view of a cell. -/
def Cell.asStr : Cell → String
  | .str s => s
  | _ => ""

/-- Datetime view of a cell. -/
def Cell.asDate : Cell → ℤ
  | .date d => d
  | _ => 0

/-- A pandas `DataFrame`: an ordered column list and one cell-valued
function per row (only columns listed in `cols` are meaningful). -/
structure DFrame where
  cols : List String
  rows : List (String → Cell)

/-- Overwrite one cell of a row. -/
def updateCell (r : String → Cell) (c : String) (v : Cell) :
    String → Cell :=
  fun c' => if c' = c then v else r c'

/-- The all-zero row used as the out-of-range default when indexing a
frame's rows. -/
def dfltRow : String → Cell := fun _ => Cell.num 0

/-- Column assignment `df[c] = f(row)`: replaces the column when it
exists, appends it otherwise. -/
def addColumn (df : DFrame) (c : String)
    (f : (String → Cell) → Cell) : DFrame :=
  { cols := if c ∈ df.cols then df.cols else df.cols ++ [c],
    rows := df.rows.map (fun r => updateCell r c (f r)) }

/-- The pandas `.dt` accessor on `asof_date` (external library,
`df['asof_date'].dt.month` and friends), modelled as arbitrary
functions of the underlying date. -/
structure DateParts where
  month : ℤ → ℚ
  dayOfWeek : ℤ → ℚ
  dayOfMonth : ℤ → ℚ

/-- The distinct issuer values in data order, as collected by
`pd.get_dummies` (pandas sorts the dummy columns; only the set of
columns and their values matter to any claim, so first-occurrence order
is used). -/
def issuerValues (df : DFrame) : List String :=
  (df.rows.map (fun r => (r "issuer").asStr)).dedup

/-- One-hot row update performed by `pd.get_dummies(df['issuer'],
prefix='issuer')` followed by `pd.concat`: each dummy column holds 1
exactly on the rows with that issuer. -/
def dummyRow (vals : List String) (r : String → Cell) : String → Cell :=
  vals.foldl
    (fun r' v =>
      updateCell r' ("issuer_" ++ v)
        (.num (if (r "issuer").asStr = v then 1 else 0)))
    r

/-- The date-part extraction of `_process_structured_data`:
`df['month'] / df['day_of_week'] / df['day_of_month']` from
`asof_date`. -/
def addDateParts (dp : DateParts) (df : DFrame) : DFrame :=
  addColumn
    (addColumn
      (addColumn df "month" (fun r => .num (dp.month (r "asof_date").asDate)))
      "day_of_week" (fun r => .num (dp.dayOfWeek (r "asof_date").asDate)))
    "day_of_month" (fun r => .num (dp.dayOfMonth (r "asof_date").asDate))

/-- The ratio features of `_process_structured_data`: note
`balance_to_income` divides by `income.replace(0, 1)`, i.e. only an
income of exactly 0 is replaced by 1. -/
def addRatios (df : DFrame) : DFrame :=
  let df4 :=
    if "balance" ∈ df.cols ∧ "income" ∈ df.cols then
      addColumn df "balance_to_income" (fun r =>
        .num ((r "balance").asNum /
          (if (r "income").asNum = 0 then 1 else (r "income").asNum)))
    else df
  if "transactions" ∈ df4.cols ∧ "income" ∈ df4.cols then
    addColumn df4 "transactions_to_income" (fun r =>
      .num ((r "transactions").asNum / ((r "income").asNum / 10000)))
  else df4

/-- The one-hot encoding step of `_process_structured_data`
(`pd.get_dummies` + `pd.concat`). -/
def addIssuerDummies (df : DFrame) : DFrame :=
  if "issuer" ∈ df.cols then
    let vals := issuerValues df
    { cols := df.cols ++ (vals.map (fun v => "issuer_" ++ v)).filter (· ∉ df.cols),
      rows := df.rows.map (dummyRow vals) }
  else df

/-- Embedding of `FeatureProcessor._process_structured_data`: date-part
columns, the two ratio columns, and issuer one-hot columns, in source
order. -/
def processStructured (dp : DateParts) (df : DFrame) : DFrame :=
  addIssuerDummies (addRatios (addDateParts dp df))

/-- The four sentiment columns attached by `_merge_news_data`. -/
def sentimentCols : List String :=
  ["news_sentiment_neg", "news_sentiment_neu", "news_sentiment_pos",
   "news_sentiment_compound"]

/-- The most recent row of a news slice
(`relevant_news.sort_values('asof_date', ascending=False).iloc[0]`;
among equal dates pandas leaves the choice to the sort, and the first
row with the maximal date is one admissible choice). -/
def pickLatest : List (String → Cell) → Option (String → Cell)
  | [] => none
  | x :: xs =>
    some (xs.foldl
      (fun best y =>
        if (best "asof_date").asDate < (y "asof_date").asDate then y else best)
      x)

/-- Embedding of `FeatureProcessor._merge_news_data`: initialise the
four sentiment columns to 0.0, then for every structured row copy the
sentiment cells of the most recent news row for the same issuer within
the trailing 7-day window (a sentiment column is copied only when the
news table has it). -/
def mergeNews (df newsDf : DFrame) : DFrame :=
  { cols := df.cols ++ sentimentCols.filter (· ∉ df.cols),
    rows := df.rows.map (fun r =>
      let zeroed := sentimentCols.foldl (fun r' c => updateCell r' c (.num 0)) r
      let relevant := newsDf.rows.filter (fun nr =>
        nr "issuer" = r "issuer" ∧
        (nr "asof_date").asDate ≤ (r "asof_date").asDate ∧
        (r "asof_date").asDate - 7 ≤ (nr "asof_date").asDate)
      match pickLatest relevant with
      | some latest =>
        sentimentCols.foldl
          (fun r' c => if c ∈ newsDf.cols then updateCell r' c (latest c) else r')
          zeroed
      | none => zeroed) }

/-- Shared shape of the two zero-padding loops of `transform`: walk a
column list in order and append each column passing `keep` that is not
yet present, filled with zero. -/
def padColumnsWithZero : List String → (String → Bool) → DFrame → DFrame
  | [], _, df => df
  | c :: cs, keep, df =>
    padColumnsWithZero cs keep
      (if c ∉ df.cols ∧ keep c = true then
        { cols := df.cols ++ [c],
          rows := df.rows.map (fun r => updateCell r c (.num 0)) }
      else df)

/-- The `for col in self.feature_columns` loop of `transform`: any
remembered feature column (other than `target`) absent from the data is
appended filled with zero. -/
def padMissingFeatures (featureColumns : List String) (df : DFrame) : DFrame :=
  padColumnsWithZero featureColumns (fun c => ! (c == "target")) df

/-- The known issuer vocabulary hard-coded in `transform`. -/
def knownIssuers : List String := ["ABC", "LMN", "QRS", "XYZ"]

/-- The `for issuer in issuers` loop of `transform`: every known
`issuer_<CODE>` column absent from the data is appended filled with
zero. -/
def padKnownIssuerCols (df : DFrame) : DFrame :=
  padColumnsWithZero (knownIssuers.map (fun code => "issuer_" ++ code))
    (fun _ => true) df

/-- The final `df.iterrows()` loop of `transform`: when an `issuer`
column exists, each row's own `issuer_<code>` cell is set to 1 provided
that column exists in the table. -/
def setOwnIssuer (df : DFrame) : DFrame :=
  if "issuer" ∈ df.cols then
    { df with
        rows := df.rows.map (fun r =>
          if ("issuer_" ++ (r "issuer").asStr) ∈ df.cols then
            updateCell r ("issuer_" ++ (r "issuer").asStr) (.num 1)
          else r) }
  else df

/-- Embedding of `FeatureProcessor.transform`.  The processor state is
the `feature_columns` list remembered by `fit_transform`; the optional
news table is merged exactly when it is given and non-empty. -/
def transform (featureColumns : List String) (dp : DateParts)
    (df : DFrame) (newsDf : Option DFrame) : DFrame :=
  let processed := processStructured dp df
  let merged :=
    match newsDf with
    | some nd => if nd.rows.isEmpty then processed else mergeNews processed nd
    | none => processed
  setOwnIssuer (padKnownIssuerCols (padMissingFeatures featureColumns merged))

/-- The non-feature column set shared by `_update_feature_lists` (with
`target`) and the trainer's `drop_cols` (without). -/
def excludeCols : List String :=
  ["target", "asof_date", "data_source", "issuer", "news_text"]

/-- Embedding of `FeatureProcessor._update_feature_lists`: the feature
columns remembered after a fit are the table's columns minus the
non-feature set. -/
def fitFeatureColumns (df : DFrame) : List String :=
  df.cols.filter (· ∉ excludeCols)

/-- Embedding of `FeatureProcessor.fit_transform` restricted to its
output state: the processed table and the remembered feature columns. -/
def fit_transform (dp : DateParts) (df : DFrame) (newsDf : Option DFrame) :
    DFrame × List String :=
  let processed := processStructured dp df
  let merged :=
    match newsDf with
    | some nd => if nd.rows.isEmpty then processed else mergeNews processed nd
    | none => processed
  (merged, fitFeatureColumns merged)

end Features

/-! ## Credit scoring model (`src/model/trainer.py`) -/

namespace Trainer

open Features

/-- The `drop_cols` list shared by `predict`, `explain` and
`explain_instance`. -/
def dropCols : List String := ["asof_date", "data_source", "issuer", "news_text"]

/-- A trained `CreditScoreModel` as far as its inference surface is
concerned.  The fitted `StandardScaler`, the `LGBMClassifier` and the
`shap.TreeExplainer` are external numerical black boxes; their
behaviour is carried by the function fields: `scale c` is the fitted
per-column standardisation, `predictProba` the positive-class
probability on a prepared row over given columns, `shapValues` the
per-column attributions of that row, and `expectedValue` the
explainer's (positive-class) baseline. -/
structure TrainedModel where
  numericalFeatures : List String
  scale : String → ℚ → ℚ
  predictProba : (String → Cell) → List String → ℚ
  expectedValue : ℚ
  shapValues : (String → Cell) → List String → List ℚ

/-- The shared preparation pipeline of `predict` / `explain_instance`:
drop the non-feature columns, then apply the fitted scaler to the
numerical feature columns. -/
def prepareFeatures (m : TrainedModel) (df : DFrame) : DFrame :=
  { cols := df.cols.filter (· ∉ dropCols),
    rows := df.rows.map (fun r => fun c =>
      if c ∈ m.numericalFeatures then
        match r c with
        | .num q => .num (m.scale c q)
        | v => v
      else r c) }

/-- Embedding of `CreditScoreModel.predict` (post-training): prepare the
features identically to training and return the positive-class
probability per row. -/
def predict (m : TrainedModel) (df : DFrame) : List ℚ :=
  let x := prepareFeatures m df
  x.rows.map (fun r => m.predictProba r x.cols)

/-- One `{feature, value, contribution}` entry of
`explain_instance`. -/
structure Contribution where
  feature : String
  value : ℚ
  contribution : ℚ
  deriving Repr, DecidableEq

/-- The result dict of `explain_instance`. -/
structure InstanceExplanation where
  baseValue : ℚ
  contributions : List Contribution
  score : ℚ
  deriving Repr, DecidableEq

/-- The `feature_contributions` list built by the `for i, col in
enumerate(X_explain.columns)` loop of `explain_instance`, before
sorting. -/
def featureContributions (m : TrainedModel) (inst : DFrame) :
    List Contribution :=
  let x := prepareFeatures m inst
  let row := x.rows.headD (fun _ => .num 0)
  (x.cols.zip (m.shapValues row x.cols)).map (fun p =>
    { feature := p.1, value := (row p.1).asNum, contribution := p.2 })

/-- Embedding of `CreditScoreModel.explain_instance` (post-training):
prepare the single-row frame, collect per-feature contributions from
the SHAP values, sort them by descending absolute contribution, and
return `base_value + sum(contributions)` as the reconstructed score.
The binary-classification list/array indexing on `shap_values` and
`expected_value` is folded into the model fields, which already carry
the positive-class values. -/
def explain_instance (m : TrainedModel) (inst : DFrame) :
    InstanceExplanation :=
  let sorted := (featureContributions m inst).mergeSort
    (fun a b => decide (|b.contribution| ≤ |a.contribution|))
  let totalContribution := (sorted.map (fun c => c.contribution)).sum
  { baseValue := m.expectedValue,
    contributions := sorted,
    score := m.expectedValue + totalContribution }

/-- Modelled from the spec: the Shapley attribution engine is the
external `shap.TreeExplainer` (its mathematics is explicitly out of
scope for the repository); the spec's black-box contract for it is the
local-accuracy identity — baseline plus the sum of the per-feature
attributions of a row equals the model's predicted probability for
that row. -/
def ShapLocalAccuracy (m : TrainedModel) (row : String → Cell)
    (cols : List String) : Prop :=
  m.expectedValue + (m.shapValues row cols).sum = m.predictProba row cols

end Trainer

/-! ## REST API batch scoring (`src/serve/api.py`, `src/utils/validation.py`) -/

namespace Api

/-- A parsed `CreditScoreRequest` item of a batch request (the request
model's fields; `transactions` is typed as an integer). -/
structure ScoreItem where
  issuer : String
  income : ℚ
  balance : ℚ
  transactions : ℤ
  newsSentiment : ℚ
  deriving Repr, DecidableEq

/-- The `ValidationResult` value type of
`src/utils/validation.py`. -/
structure ValidationResult where
  isValid : Bool
  errors : List String
  deriving Repr, DecidableEq

/-- Embedding of `validate_credit_score_input` (the credit-score
`SchemaValidator`): the handler always supplies all five fields, so no
required-field errors arise; the fields are statically of the schema's
expected types; the per-field validators run in the data dict's
insertion order — `issuer` not empty, `income >= 0`, `balance >= 0`,
`transactions >= 0`, `news_sentiment` in `[-1, 1]`.  (Message text is
reproduced up to numeric formatting.) -/
def validate_credit_score_input (it : ScoreItem) : ValidationResult :=
  let errs : List String :=
    (if Py.stripIsEmpty it.issuer then ["Field issuer: Value cannot be empty"] else []) ++
    (if it.income < 0 then
      ["Field income: Value " ++ toString it.income ++ " is less than minimum 0"] else []) ++
    (if it.balance < 0 then
      ["Field balance: Value " ++ toString it.balance ++ " is less than minimum 0"] else []) ++
    (if it.transactions < 0 then
      ["Field transactions: Value " ++ toString it.transactions ++ " is less than minimum 0"] else []) ++
    (if it.newsSentiment < -1 then
      ["Field news_sentiment: Value " ++ toString it.newsSentiment ++ " is less than minimum -1"]
     else if 1 < it.newsSentiment then
      ["Field news_sentiment: Value " ++ toString it.newsSentiment ++ " is greater than maximum 1"]
     else [])
  { isValid := errs.isEmpty, errors := errs }

/-- An `HTTPException` as raised by the endpoint (status code plus a
string rendering of the detail). -/
structure HTTPException where
  statusCode : Nat
  detail : String
  deriving Repr, DecidableEq

/-- Python's `str()` of a Starlette `HTTPException`:
`f"{status_code}: {detail}"`. -/
def HTTPException.toStr (e : HTTPException) : String :=
  toString e.statusCode ++ ": " ++ e.detail

/-- The `for i, item in enumerate(request.items)` validation loop of
`batch_score_credit`, carrying the running index. -/
def batchValidationErrorsFrom (i : Nat) :
    List ScoreItem → List (Nat × List String)
  | [] => []
  | it :: rest =>
    let v := validate_credit_score_input it
    if v.isValid then batchValidationErrorsFrom (i + 1) rest
    else (i, v.errors) :: batchValidationErrorsFrom (i + 1) rest

/-- The per-item validation pass of `batch_score_credit`: the
`validation_errors` list of `(index, errors)` pairs, in item order. -/
def batchValidationErrors (items : List ScoreItem) : List (Nat × List String) :=
  batchValidationErrorsFrom 0 items

/-- The body of the `try` block of `batch_score_credit`, up to the
response.  `model_manager.predict_with_explanation` is external to this
endpoint and is modelled by the `predictBatch` parameter (the
positive-class scores for the valid items); the error value is the
`HTTPException` the block raises. -/
def batchScoreBody (predictBatch : List ScoreItem → List ℚ)
    (items : List ScoreItem) : Except HTTPException (List ℚ) :=
  let validationErrors := batchValidationErrors items
  if ¬ validationErrors.isEmpty then
    .error { statusCode := 422,
             detail := "Validation failed for some items: " ++
               String.intercalate "; "
                 (validationErrors.map (fun p =>
                   "index " ++ toString p.1 ++ ": " ++ String.intercalate ", " p.2)) }
  else
    let inputDataList := items.filter (fun it => (validate_credit_score_input it).isValid)
    if inputDataList.isEmpty then
      .error { statusCode := 422, detail := "No valid items to process" }
    else
      let predictions := predictBatch inputDataList
      if predictions.isEmpty then
        .error { statusCode := 503, detail := "Model prediction failed" }
      else
        .ok (predictions.map (fun p => p * 1000))

/-- Embedding of the `batch_score_credit` endpoint's observable
outcome: the whole body sits in a `try` whose
`except Exception as e: raise HTTPException(500, ...)` clause catches
every exception — including the `HTTPException`s the body itself raises
(FastAPI's `HTTPException` derives from `Exception`) — and re-raises it
with status 500. -/
def batch_score_credit (predictBatch : List ScoreItem → List ℚ)
    (items : List ScoreItem) : Except HTTPException (List ℚ) :=
  match batchScoreBody predictBatch items with
  | .ok results => .ok results
  | .error e =>
    .error { statusCode := 500,
             detail := "Error processing batch request: " ++ e.toStr }

/-- The HTTP status the caller observes for a batch-score request. -/
def batchScoreStatus (predictBatch : List ScoreItem → List ℚ)
    (items : List ScoreItem) : Nat :=
  match batch_score_credit predictBatch items with
  | .ok _ => 200
  | .error e => e.statusCode

end Api

/-! ## Concrete fixtures (inputs for witnesses and counterexamples) -/

namespace Fixtures

/-- A registered-model record. -/
def modelInfoA : Registry.ModelInfo :=
  { name := "CreditScoreModel", version := "1.0.0", description := "",
    createdAt := "2024-01-01T00:00:00", filePath := "models/registry/m1/model.joblib",
    status := "registered" }

/-- A registry holding two registered models and no experiment. -/
def regTwoModels : Registry.RegistryState :=
  { models := [("m1", modelInfoA), ("m2", modelInfoA)],
    production := some "m1",
    experiments := [],
    defaultTrafficSplit := [] }

/-- A live 60/40 experiment record. -/
def expInfoA : Registry.ExperimentInfo :=
  { id := "e1", name := "Exp", description := "",
    modelVariants := [("m1", 60), ("m2", 40)],
    createdAt := "2024-01-01T00:00:00", status := "active" }

/-- A registry with the 60/40 experiment live. -/
def regWithExperiment : Registry.RegistryState :=
  { models := [("m1", modelInfoA), ("m2", modelInfoA)],
    production := some "m1",
    experiments := [("e1", expInfoA)],
    defaultTrafficSplit := [("m1", 60), ("m2", 40)] }

/-- The seeded administrator account. -/
def adminRec : Auth.UserRecord :=
  { username := "admin", passwordHash := "salt$hash", fullName := "Administrator",
    email := "admin@credtech.com", role := "admin",
    createdAt := "2024-01-01T00:00:00", lastLogin := none }

/-- A second administrator account. -/
def adminRec2 : Auth.UserRecord :=
  { adminRec with username := "admin2", email := "admin2@credtech.com" }

/-- An ordinary (non-admin) account. -/
def plainUserRec : Auth.UserRecord :=
  { username := "bob", passwordHash := "salt$hash", fullName := "Bob",
    email := "bob@credtech.com", role := "user",
    createdAt := "2024-01-01T00:00:00", lastLogin := none }

/-- A store whose only admin is `admin`. -/
def soloAdminStore : Auth.UserStore :=
  [("admin", adminRec), ("bob", plainUserRec)]

/-- A store with two admins. -/
def twoAdminStore : Auth.UserStore :=
  [("admin", adminRec), ("admin2", adminRec2)]

/-- A valid batch-score item. -/
def validItemA : Api.ScoreItem :=
  { issuer := "ABC", income := 50000, balance := 1000, transactions := 10,
    newsSentiment := 0 }

/-- A second valid batch-score item. -/
def validItemB : Api.ScoreItem :=
  { issuer := "XYZ", income := 80000, balance := 2500, transactions := 25,
    newsSentiment := 0 }

/-- A third valid batch-score item. -/
def validItemC : Api.ScoreItem :=
  { issuer := "LMN", income := 30000, balance := 500, transactions := 5,
    newsSentiment := 0 }

/-- A batch-score item failing validation: negative income. -/
def invalidItemNegIncome : Api.ScoreItem :=
  { issuer := "QRS", income := -100000, balance := 45000000, transactions := 1250,
    newsSentiment := 0 }

/-- A trained model with trivial external black boxes: identity scaler,
constant predicted probability 1/2, baseline 1/2 and zero attribution
for every feature (a model satisfying the SHAP local-accuracy
contract). -/
def constModel : Trainer.TrainedModel :=
  { numericalFeatures := [],
    scale := fun _ v => v,
    predictProba := fun _ _ => 1/2,
    expectedValue := 1/2,
    shapValues := fun _ cols => cols.map (fun _ => 0) }

/-- A one-row, one-feature frame. -/
def oneRowFrame : Features.DFrame :=
  { cols := ["income"], rows := [fun _ => .num 3] }

/-- Pandas date-part accessors returning 0 everywhere (their values are
irrelevant to every claim). -/
def dpTriv : Features.DateParts :=
  { month := fun _ => 0, dayOfWeek := fun _ => 0, dayOfMonth := fun _ => 0 }

/-- A one-row structured table whose income is 1/2 (a positive income
below 1, separating `income.replace(0, 1)` from `max(income, 1)`). -/
def dfHalfIncome : Features.DFrame :=
  { cols := ["issuer", "asof_date", "income", "balance"],
    rows := [fun c =>
      if c = "income" then .num (1/2)
      else if c = "balance" then .num 1
      else if c = "asof_date" then .date 0
      else .str "ABC"] }

/-- A two-row serving table: one known issuer (`ABC`) and one unseen
issuer (`NEW`). -/
def dfServing : Features.DFrame :=
  { cols := ["issuer", "asof_date", "income", "balance", "transactions"],
    rows :=
      [fun c =>
        if c = "income" then .num 50000
        else if c = "balance" then .num 1000
        else if c = "transactions" then .num 10
        else if c = "asof_date" then .date 100
        else .str "ABC",
       fun c =>
        if c = "income" then .num 80000
        else if c = "balance" then .num 2500
        else if c = "transactions" then .num 25
        else if c = "asof_date" then .date 100
        else .str "NEW"] }

end Fixtures

/-! ## Theorems -/

/-- Helper: a stored hash that does not split into exactly two parts
makes the body of `verify_password` raise. -/
theorem verifyPasswordBody_error_of_malformed
    (pbkdf2Hex : String → String → String) (password hashed : String)
    (h : (Py.split '$' hashed).length ≠ 2) :
    ∃ e, Security.verifyPasswordBody pbkdf2Hex password hashed = .error e := by
  unfold Security.verifyPasswordBody
  rcases hs : Py.split '$' hashed with _ | ⟨a, _ | ⟨b, _ | ⟨c, t⟩⟩⟩
  · exact ⟨_, rfl⟩
  · exact ⟨_, rfl⟩
  · exact absurd (by rw [hs]; rfl) h
  · exact ⟨_, rfl⟩

/-- C10: `SecurityManager.verify_password` is total — every exception
raised by its body (in particular the `ValueError` from unpacking a
stored string without exactly one `$` separator) is caught and turned
into `False`, so the caller always receives a boolean. -/
theorem C10_verify_password_total
    (pbkdf2Hex : String → String → String) (password hashed : String) :
    (∀ e, Security.verifyPasswordBody pbkdf2Hex password hashed = .error e →
        Security.verify_password pbkdf2Hex password hashed = false) ∧
    ((Py.split '$' hashed).length ≠ 2 →
        Security.verify_password pbkdf2Hex password hashed = false) := by
  constructor
  · intro e he
    unfold Security.verify_password
    rw [he]
  · intro hlen
    obtain ⟨e, he⟩ :=
      verifyPasswordBody_error_of_malformed pbkdf2Hex password hashed hlen
    unfold Security.verify_password
    rw [he]

/-- Witness for C10: a stored string with no `$` separator is rejected
with `False` rather than an error. -/
theorem C10_verify_password_total_witness :
    (Py.split '$' "malformed-no-separator").length ≠ 2 ∧
    Security.verify_password (fun _ _ => "digest") "pw" "malformed-no-separator" = false :=
  ⟨by decide,
   (C10_verify_password_total (fun _ _ => "digest") "pw" "malformed-no-separator").2
     (by decide)⟩

/-- C3: stopping an experiment that exists in the registry succeeds,
marks exactly that experiment's status `"stopped"`, and leaves
`default_traffic_split`, the models map and the production pointer
unchanged (the operation itself is modelled from the spec, being absent
from `registry.py`). -/
theorem C3_stop_experiment_stops_and_preserves
    (reg : Registry.RegistryState) (eid : String)
    (hmem : ∃ e ∈ reg.experiments, e.1 = eid) :
    (Registry.stop_experiment reg eid).1 = true ∧
    (Registry.stop_experiment reg eid).2.defaultTrafficSplit = reg.defaultTrafficSplit ∧
    (Registry.stop_experiment reg eid).2.models = reg.models ∧
    (Registry.stop_experiment reg eid).2.production = reg.production ∧
    (Registry.stop_experiment reg eid).2.experiments =
      reg.experiments.map (fun e =>
        if e.1 = eid then (e.1, { e.2 with status := "stopped" }) else e) ∧
    (∀ e ∈ (Registry.stop_experiment reg eid).2.experiments,
        e.1 = eid → e.2.status = "stopped") ∧
    (∀ e ∈ reg.experiments, e.1 ≠ eid →
        e ∈ (Registry.stop_experiment reg eid).2.experiments) := by
  have hany : reg.experiments.any (fun e => decide (e.1 = eid)) = true := by
    rw [List.any_eq_true]
    obtain ⟨e, he, heq⟩ := hmem
    exact ⟨e, he, by simp [heq]⟩
  have hstep : Registry.stop_experiment reg eid =
      (true, { reg with experiments := reg.experiments.map (fun e =>
        if e.1 = eid then (e.1, { e.2 with status := "stopped" }) else e) }) := by
    unfold Registry.stop_experiment
    rw [hany]
    exact if_pos rfl
  rw [hstep]
  refine ⟨rfl, rfl, rfl, rfl, rfl, ?_, ?_⟩
  · intro e he heq
    obtain ⟨e0, he0, hmap⟩ := List.mem_map.1 he
    by_cases h0 : e0.1 = eid
    · rw [if_pos h0] at hmap
      rw [← hmap]
    · rw [if_neg h0] at hmap
      rw [← hmap] at heq
      exact absurd heq h0
  · intro e he hne
    exact List.mem_map.2 ⟨e, he, by rw [if_neg hne]⟩

/-- Witness for C3: stopping the live experiment `e1` of the fixture
registry succeeds and leaves the traffic split in place. -/
theorem C3_stop_experiment_witness :
    (∃ e ∈ Fixtures.regWithExperiment.experiments, e.1 = "e1") ∧
    (Registry.stop_experiment Fixtures.regWithExperiment "e1").1 = true ∧
    (Registry.stop_experiment Fixtures.regWithExperiment "e1").2.defaultTrafficSplit =
      Fixtures.regWithExperiment.defaultTrafficSplit := by
  have hmem : ∃ e ∈ Fixtures.regWithExperiment.experiments, e.1 = "e1" :=
    ⟨("e1", Fixtures.expInfoA), List.mem_singleton.2 rfl, rfl⟩
  have h := C3_stop_experiment_stops_and_preserves Fixtures.regWithExperiment "e1" hmem
  exact ⟨hmem, h.1, h.2.1⟩

/-- C5: `create_experiment` rejects (returning `""` and leaving the
registry untouched) any variants map whose percentages do not sum to
100 within `np.isclose` tolerance or that references an unregistered
model id; a valid map is accepted — the new `ExperimentEntry` (status
`"active"`) is appended and `default_traffic_split` is overwritten with
the map, the other registry fields staying unchanged. -/
theorem C5_create_experiment_validation
    (reg : Registry.RegistryState) (name desc freshId createdAt : String)
    (variants : List (String × ℚ)) :
    (¬ Registry.npIsClose ((variants.map Prod.snd).sum) 100 →
      Registry.create_experiment reg name variants desc freshId createdAt = ("", reg)) ∧
    ((∃ v ∈ variants, ∀ m ∈ reg.models, m.1 ≠ v.1) →
      Registry.create_experiment reg name variants desc freshId createdAt = ("", reg)) ∧
    (Registry.npIsClose ((variants.map Prod.snd).sum) 100 →
     (∀ v ∈ variants, ∃ m ∈ reg.models, m.1 = v.1) →
      (Registry.create_experiment reg name variants desc freshId createdAt).1 = freshId ∧
      (Registry.create_experiment reg name variants desc freshId createdAt).2.experiments =
        reg.experiments ++ [(freshId,
          { id := freshId, name := name, description := desc,
            modelVariants := variants, createdAt := createdAt,
            status := "active" })] ∧
      (Registry.create_experiment reg name variants desc freshId createdAt).2.defaultTrafficSplit =
        variants ∧
      (Registry.create_experiment reg name variants desc freshId createdAt).2.models = reg.models ∧
      (Registry.create_experiment reg name variants desc freshId createdAt).2.production =
        reg.production) := by
  refine ⟨?_, ?_, ?_⟩
  · intro hfar
    unfold Registry.create_experiment
    rw [if_pos hfar]
  · intro hmissing
    have hanyT : (variants.any fun v => ! reg.models.any fun m => decide (m.1 = v.1)) = true := by
      rw [List.any_eq_true]
      obtain ⟨v, hv, hall⟩ := hmissing
      refine ⟨v, hv, ?_⟩
      rw [Bool.not_eq_true']
      rw [← Bool.not_eq_true]
      rw [List.any_eq_true]
      rintro ⟨m, hm, hdec⟩
      exact hall m hm (of_decide_eq_true hdec)
    unfold Registry.create_experiment
    by_cases hclose : Registry.npIsClose ((variants.map Prod.snd).sum) 100
    · rw [if_neg (not_not_intro hclose), hanyT]
      exact if_pos rfl
    · rw [if_pos hclose]
  · intro hclose hall
    have hanyF : (variants.any fun v => ! reg.models.any fun m => decide (m.1 = v.1)) = false := by
      rw [← Bool.not_eq_true]
      rw [List.any_eq_true]
      rintro ⟨v, hv, hnot⟩
      rw [Bool.not_eq_true'] at hnot
      obtain ⟨m, hm, hmv⟩ := hall v hv
      have : (reg.models.any fun m => decide (m.1 = v.1)) = true := by
        rw [List.any_eq_true]
        exact ⟨m, hm, decide_eq_true hmv⟩
      rw [this] at hnot
      cases hnot
    have hstep : Registry.create_experiment reg name variants desc freshId createdAt =
        (freshId,
         { reg with
            experiments := reg.experiments ++ [(freshId,
              { id := freshId, name := name, description := desc,
                modelVariants := variants, createdAt := createdAt,
                status := "active" })],
            defaultTrafficSplit := variants }) := by
      unfold Registry.create_experiment
      rw [if_neg (not_not_intro hclose), hanyF]
      exact if_neg (by simp)
    rw [hstep]
    exact ⟨rfl, rfl, rfl, rfl, rfl⟩

/-- Witness for C5: in the two-model fixture registry a 60/40 variants
map over the registered ids is accepted — the experiment is stored and
the live traffic split overwritten. -/
theorem C5_create_experiment_witness :
    Registry.npIsClose (([("m1", (60 : ℚ)), ("m2", 40)].map Prod.snd).sum) 100 ∧
    (∀ v ∈ [("m1", (60 : ℚ)), ("m2", 40)],
        ∃ m ∈ Fixtures.regTwoModels.models, m.1 = v.1) ∧
    (Registry.create_experiment Fixtures.regTwoModels "exp"
        [("m1", 60), ("m2", 40)] "" "e9" "t").1 = "e9" ∧
    (Registry.create_experiment Fixtures.regTwoModels "exp"
        [("m1", 60), ("m2", 40)] "" "e9" "t").2.defaultTrafficSplit =
      [("m1", 60), ("m2", 40)] := by
  have hclose : Registry.npIsClose (([("m1", (60 : ℚ)), ("m2", 40)].map Prod.snd).sum) 100 := by
    unfold Registry.npIsClose
    norm_num
  have hall : ∀ v ∈ [("m1", (60 : ℚ)), ("m2", 40)],
      ∃ m ∈ Fixtures.regTwoModels.models, m.1 = v.1 := by
    intro v hv
    rcases List.mem_cons.1 hv with h1 | h2
    · exact ⟨("m1", Fixtures.modelInfoA), by simp [Fixtures.regTwoModels], by rw [h1]⟩
    · have h2' : v = ("m2", (40 : ℚ)) := List.mem_singleton.1 h2
      exact ⟨("m2", Fixtures.modelInfoA), by simp [Fixtures.regTwoModels], by rw [h2']⟩
  have h := (C5_create_experiment_validation Fixtures.regTwoModels "exp" "" "e9" "t"
    [("m1", 60), ("m2", 40)]).2.2 hclose hall
  exact ⟨hclose, hall, h.1, h.2.2.1⟩

/-- C4 counterexample: in a store whose only admin is `admin`, the
claim asserts that `update_user` rejects demoting that account and
leaves the store unchanged; in fact `update_user` reports success and
demotes it. -/
theorem C4_last_admin_counterexample :
    (Auth.update_user Fixtures.soloAdminStore "admin" none none (some "user")).1 = true ∧
    (Auth.update_user Fixtures.soloAdminStore "admin" none none (some "user")).2 ≠
      Fixtures.soloAdminStore ∧
    ((Auth.update_user Fixtures.soloAdminStore "admin" none none
        (some "user")).2.lookup "admin").map Auth.UserRecord.role = some "user" := by
  refine ⟨by decide, ?_, by decide⟩
  intro h
  have := congrArg (fun s => (s.lookup "admin").map Auth.UserRecord.role) h
  revert this
  decide

/-- C4 amended: `delete_user` rejects deleting the sole remaining admin
and leaves the store unchanged, and deletes an admin when another admin
exists; `update_user`, by contrast, applies a requested role change
unconditionally whenever the user exists — the last-admin demotion
guard lives in the dashboard user-management page, not in
`update_user`. -/
theorem C4_last_admin_amended
    (users : Auth.UserStore) (username : String) (u : Auth.UserRecord) :
    (users.lookup username = some u → u.role = "admin" →
      Auth.adminCount users ≤ 1 →
      Auth.delete_user users username = (false, users)) ∧
    (users.lookup username = some u → u.role = "admin" →
      2 ≤ Auth.adminCount users →
      Auth.delete_user users username =
        (true, users.filter (fun p => p.1 ≠ username))) ∧
    (users.lookup username = some u → ∀ r,
      Auth.update_user users username none none (some r) =
        (true, users.map (fun p =>
          if p.1 = username then (p.1, { p.2 with role := r }) else p))) := by
  refine ⟨?_, ?_, ?_⟩
  · intro hl hrole hcount
    unfold Auth.delete_user
    rw [hl]
    exact if_pos ⟨hrole, hcount⟩
  · intro hl hrole hcount
    unfold Auth.delete_user
    rw [hl]
    exact if_neg (by rintro ⟨-, hle⟩; omega)
  · intro hl r
    unfold Auth.update_user
    rw [hl]
    rfl

/-- Witness for C4's amended statement: deleting the sole admin of the
solo-admin store fails and changes nothing; deleting `admin2` from the
two-admin store succeeds; demoting the sole admin through `update_user`
succeeds. -/
theorem C4_last_admin_amended_witness :
    Fixtures.soloAdminStore.lookup "admin" = some Fixtures.adminRec ∧
    Auth.adminCount Fixtures.soloAdminStore ≤ 1 ∧
    Auth.delete_user Fixtures.soloAdminStore "admin" = (false, Fixtures.soloAdminStore) ∧
    2 ≤ Auth.adminCount Fixtures.twoAdminStore ∧
    (Auth.delete_user Fixtures.twoAdminStore "admin2").1 = true ∧
    (Auth.update_user Fixtures.soloAdminStore "admin" none none (some "user")).1 = true := by
  have h1 := (C4_last_admin_amended Fixtures.soloAdminStore "admin" Fixtures.adminRec).1
    (by decide) (by decide) (by decide)
  have h2 := (C4_last_admin_amended Fixtures.twoAdminStore "admin2" Fixtures.adminRec2).2.1
    (by decide) (by decide) (by decide)
  have h3 := (C4_last_admin_amended Fixtures.soloAdminStore "admin" Fixtures.adminRec).2.2
    (by decide) "user"
  exact ⟨by decide, by decide, h1, by decide, by rw [h2], by rw [h3]⟩

/-- Helper: the accumulating walk of `get_model_for_request` agrees with
the spec's description via cumulative prefix totals. -/
theorem walkSplit_eq_find (bucket acc : ℚ) (split : List (String × ℚ)) :
    Registry.walkSplit bucket acc split =
      ((split.zip (Metrics.cumSumsFrom acc (split.map Prod.snd))).find?
        (fun p => decide (bucket < p.2))).map (fun p => p.1.1) := by
  induction split generalizing acc with
  | nil => rfl
  | cons hd tl ih =>
    obtain ⟨mid, pct⟩ := hd
    show Registry.walkSplit bucket acc ((mid, pct) :: tl) = _
    rw [Registry.walkSplit]
    simp only [List.map_cons, Metrics.cumSumsFrom, List.zip_cons_cons, List.find?]
    by_cases h : bucket < acc + pct
    · rw [if_pos h]
      rw [decide_eq_true h]
      rfl
    · rw [if_neg h]
      rw [decide_eq_false h]
      exact ih (acc + pct)

/-- C6: with a non-empty live traffic split and a non-empty request id,
`get_model_for_request` is deterministic — the random draw used for
id-less requests is irrelevant — and the returned id is exactly the
spec's walk: the hash-derived bucket lies in `[0, 100)` and the first
variant whose cumulative percentage total exceeds the bucket is
returned, the production model id being the fallback when the walk
exhausts. -/
theorem C6_routing_deterministic
    (reg : Registry.RegistryState) (hashFn : String → ℤ) (rid : String)
    (r1 r2 : ℤ) (hrid : rid ≠ "")
    (hsplit : reg.defaultTrafficSplit ≠ []) :
    Registry.get_model_for_request reg hashFn (some rid) r1 =
      Registry.get_model_for_request reg hashFn (some rid) r2 ∧
    0 ≤ hashFn rid % 100 ∧ hashFn rid % 100 < 100 ∧
    Registry.get_model_for_request reg hashFn (some rid) r1 =
      Registry.specRoute ((hashFn rid % 100 : ℤ) : ℚ) reg.defaultTrafficSplit
        reg.production := by
  have hstep : ∀ r : ℤ, Registry.get_model_for_request reg hashFn (some rid) r =
      match Registry.walkSplit ((hashFn rid % 100 : ℤ) : ℚ) 0 reg.defaultTrafficSplit with
      | some modelId => some modelId
      | none => reg.production := by
    intro r
    unfold Registry.get_model_for_request
    rw [if_neg hsplit]
    simp only [ne_eq, hrid, not_false_eq_true, if_true]
  refine ⟨by rw [hstep r1, hstep r2], Int.emod_nonneg _ (by norm_num),
    Int.emod_lt_of_pos _ (by norm_num), ?_⟩
  rw [hstep r1]
  unfold Registry.specRoute
  rw [Registry.specCumTotals, Metrics.cumSums, walkSplit_eq_find]
  cases (reg.defaultTrafficSplit.zip
      (Metrics.cumSumsFrom 0 (reg.defaultTrafficSplit.map Prod.snd))).find?
      (fun p => decide (((hashFn rid % 100 : ℤ) : ℚ) < p.2)) with
  | none => rfl
  | some p => rfl

/-- Witness for C6: routing the fixture registry's live 60/40 split
with a fixed request id ignores the random draw. -/
theorem C6_routing_deterministic_witness :
    ("req-1" : String) ≠ "" ∧
    Fixtures.regWithExperiment.defaultTrafficSplit ≠ [] ∧
    Registry.get_model_for_request Fixtures.regWithExperiment (fun _ => 7)
        (some "req-1") 3 =
      Registry.get_model_for_request Fixtures.regWithExperiment (fun _ => 7)
        (some "req-1") 55 := by
  have hne : Fixtures.regWithExperiment.defaultTrafficSplit ≠ [] :=
    List.cons_ne_nil _ _
  exact ⟨by decide, hne,
    (C6_routing_deterministic Fixtures.regWithExperiment (fun _ => 7) "req-1" 3 55
      (by decide) hne).1⟩

/-- C2 (code bug): a batch containing an item with negative income is
answered with HTTP 500, not the 422 the endpoint builds — the in-handler
`except Exception` clause also catches the `HTTPException(422)` raised
for validation failures and re-raises it with status 500.  The theorem
evaluates the embedded endpoint at the failing input. -/
theorem C2_batch_invalid_item_yields_500 :
    Api.batchScoreStatus (fun l => l.map (fun _ => (1 : ℚ) / 2))
        [Fixtures.validItemA, Fixtures.validItemB, Fixtures.validItemC,
         Fixtures.invalidItemNegIncome] = 500 ∧
    Api.batchScoreStatus (fun l => l.map (fun _ => (1 : ℚ) / 2))
        [Fixtures.validItemA, Fixtures.validItemB, Fixtures.validItemC,
         Fixtures.invalidItemNegIncome] ≠ 422 := by
  have hv : ∀ it ∈ [Fixtures.validItemA, Fixtures.validItemB, Fixtures.validItemC],
      (Api.validate_credit_score_input it).isValid = true := by
    intro it hit
    fin_cases hit <;>
        norm_num [Api.validate_credit_score_input, Fixtures.validItemA,
          Fixtures.validItemB, Fixtures.validItemC, Py.stripIsEmpty] <;>
      decide
  have hinv : (Api.validate_credit_score_input Fixtures.invalidItemNegIncome).isValid = false := by
    norm_num [Api.validate_credit_score_input, Fixtures.invalidItemNegIncome,
      Py.stripIsEmpty]
  have hstatus : Api.batchScoreStatus (fun l => l.map (fun _ => (1 : ℚ) / 2))
      [Fixtures.validItemA, Fixtures.validItemB, Fixtures.validItemC,
       Fixtures.invalidItemNegIncome] = 500 := by
    unfold Api.batchScoreStatus Api.batch_score_credit Api.batchScoreBody
    rw [Api.batchValidationErrors]
    rw [Api.batchValidationErrorsFrom, hv Fixtures.validItemA (by simp), if_pos rfl]
    rw [Api.batchValidationErrorsFrom, hv Fixtures.validItemB (by simp), if_pos rfl]
    rw [Api.batchValidationErrorsFrom, hv Fixtures.validItemC (by simp), if_pos rfl]
    rw [Api.batchValidationErrorsFrom, hinv]
    simp
  exact ⟨hstatus, by rw [hstatus]; decide⟩

/-- Helper: mapping `Prod.snd` over a zip of equal-length lists recovers
the second list. -/
theorem map_snd_zip_of_length_eq {α β : Type} (as : List α) (bs : List β)
    (h : bs.length = as.length) :
    (as.zip bs).map Prod.snd = bs := by
  induction as generalizing bs with
  | nil => cases bs with
    | nil => rfl
    | cons b t => cases h
  | cons a t ih =>
    cases bs with
    | nil => cases h
    | cons b bt =>
      exact congrArg (List.cons b) (ih bt (by simpa using h))

/-- Helper: the default head of a mapped non-empty list is the image of
the head. -/
theorem headD_map_ne_nil {α β : Type} (f : α → β) (l : List α) (d1 : β)
    (d2 : α) (h : l ≠ []) : (l.map f).headD d1 = f (l.headD d2) := by
  cases l with
  | nil => exact absurd rfl h
  | cons a t => rfl

/-- C1: the explanation returned by `explain_instance` satisfies the
additive-attribution identity — its `score` equals `base_value` plus
the sum of all per-feature contributions — and, whenever the external
SHAP explainer meets the spec's local-accuracy contract on the prepared
row (one attribution per feature, baseline plus attributions summing to
the predicted probability), that reconstructed score equals the
probability `predict` returns for the same row. -/
theorem C1_explain_instance_additive
    (m : Trainer.TrainedModel) (inst : Features.DFrame)
    (hlen : (m.shapValues
        ((Trainer.prepareFeatures m inst).rows.headD (fun _ => .num 0))
        (Trainer.prepareFeatures m inst).cols).length =
      (Trainer.prepareFeatures m inst).cols.length)
    (hrows : inst.rows ≠ [])
    (hacc : Trainer.ShapLocalAccuracy m
        ((Trainer.prepareFeatures m inst).rows.headD (fun _ => .num 0))
        (Trainer.prepareFeatures m inst).cols) :
    (Trainer.explain_instance m inst).score =
      (Trainer.explain_instance m inst).baseValue +
        ((Trainer.explain_instance m inst).contributions.map
          (fun c => c.contribution)).sum ∧
    (Trainer.explain_instance m inst).score = (Trainer.predict m inst).headD 0 := by
  constructor
  · rfl
  · have hsum1 : ((Trainer.explain_instance m inst).contributions.map
        (fun c => c.contribution)).sum =
        ((Trainer.featureContributions m inst).map (fun c => c.contribution)).sum :=
      ((List.mergeSort_perm (Trainer.featureContributions m inst)
        (fun a b => decide (|b.contribution| <= |a.contribution|))).map
        (fun c : Trainer.Contribution => c.contribution)).sum_eq
    have hsum2 : ((Trainer.featureContributions m inst).map
        (fun c => c.contribution)).sum =
        (m.shapValues ((Trainer.prepareFeatures m inst).rows.headD (fun _ => .num 0))
          (Trainer.prepareFeatures m inst).cols).sum := by
      unfold Trainer.featureContributions
      rw [List.map_map]
      have hcomp : ((fun c : Trainer.Contribution => c.contribution) ∘
          (fun p : String × ℚ =>
            ({ feature := p.1,
               value := (((Trainer.prepareFeatures m inst).rows.headD
                 (fun _ => Features.Cell.num 0)) p.1).asNum,
               contribution := p.2 } : Trainer.Contribution))) =
          (Prod.snd : String × ℚ → ℚ) := rfl
      rw [hcomp]
      rw [map_snd_zip_of_length_eq _ _ hlen]
    have hscore : (Trainer.explain_instance m inst).score =
        m.expectedValue + ((Trainer.explain_instance m inst).contributions.map
          (fun c => c.contribution)).sum := rfl
    rw [hscore, hsum1, hsum2, hacc]
    unfold Trainer.predict
    have hXne : (Trainer.prepareFeatures m inst).rows ≠ [] := by
      intro h
      exact hrows (List.map_eq_nil_iff.mp h)
    rw [headD_map_ne_nil _ (Trainer.prepareFeatures m inst).rows 0
      (fun _ => Features.Cell.num 0) hXne]

/-- Witness for C1: a model whose external black boxes satisfy the SHAP
contract (baseline 1/2, zero attributions, constant probability 1/2)
explains a one-row frame with a reconstructed score equal to the
predicted probability. -/
theorem C1_explain_instance_additive_witness :
    Fixtures.oneRowFrame.rows ≠ [] ∧
    Trainer.ShapLocalAccuracy Fixtures.constModel
      ((Trainer.prepareFeatures Fixtures.constModel Fixtures.oneRowFrame).rows.headD
        (fun _ => .num 0))
      (Trainer.prepareFeatures Fixtures.constModel Fixtures.oneRowFrame).cols ∧
    (Trainer.explain_instance Fixtures.constModel Fixtures.oneRowFrame).score =
      (Trainer.predict Fixtures.constModel Fixtures.oneRowFrame).headD 0 := by
  have hrows : Fixtures.oneRowFrame.rows ≠ [] := by
    rw [Fixtures.oneRowFrame]
    intro h
    cases h
  have hacc : Trainer.ShapLocalAccuracy Fixtures.constModel
      ((Trainer.prepareFeatures Fixtures.constModel Fixtures.oneRowFrame).rows.headD
        (fun _ => .num 0))
      (Trainer.prepareFeatures Fixtures.constModel Fixtures.oneRowFrame).cols := by
    unfold Trainer.ShapLocalAccuracy Fixtures.constModel
    norm_num [Trainer.prepareFeatures, Fixtures.oneRowFrame, Trainer.dropCols]
  have hlen : (Fixtures.constModel.shapValues
      ((Trainer.prepareFeatures Fixtures.constModel Fixtures.oneRowFrame).rows.headD
        (fun _ => .num 0))
      (Trainer.prepareFeatures Fixtures.constModel Fixtures.oneRowFrame).cols).length =
      (Trainer.prepareFeatures Fixtures.constModel Fixtures.oneRowFrame).cols.length := by
    rw [Fixtures.constModel]
    exact List.length_map _ _
  exact ⟨hrows, hacc,
    (C1_explain_instance_additive Fixtures.constModel Fixtures.oneRowFrame hlen
      hrows hacc).2⟩

/-! Generic list access lemmas. -/

/-- Helper: in-range default indexing commutes with `map`. -/
theorem getD_map_lt {α β : Type} (g : α → β) (l : List α) (i : Nat)
    (h : i < l.length) (d1 : β) (d2 : α) :
    (l.map g).getD i d1 = g (l.getD i d2) := by
  induction l generalizing i with
  | nil => cases h
  | cons a t ih =>
    cases i with
    | zero => rfl
    | succ n => exact ih n (Nat.lt_of_succ_lt_succ h)

/-- Helper: an in-range default read is a member of the list. -/
theorem getD_mem {α : Type} (l : List α) (i : Nat) (d : α)
    (h : i < l.length) : l.getD i d ∈ l := by
  induction l generalizing i with
  | nil => cases h
  | cons a t ih =>
    cases i with
    | zero => exact List.mem_cons_self _ _
    | succ n => exact List.mem_cons_of_mem _ (ih n (Nat.lt_of_succ_lt_succ h))

/-! String facts about the one-hot column names. -/

/-- Helper: the one-hot column-name former is injective. -/
theorem issuer_append_inj {t u : String}
    (h : "issuer_" ++ t = "issuer_" ++ u) : t = u := by
  have hd := congrArg String.data h
  rw [String.data_append, String.data_append] at hd
  exact String.ext (List.append_cancel_left hd)

/-- Helper: no one-hot column name is the `issuer` column itself. -/
theorem issuer_append_ne_issuer (v : String) : "issuer_" ++ v ≠ "issuer" := by
  intro h
  have hl := congrArg String.length h
  rw [String.length_append] at hl
  have h7 : ("issuer_" : String).length = 7 := rfl
  have h6 : ("issuer" : String).length = 6 := rfl
  rw [h7, h6] at hl
  omega

/-- Helper: no one-hot column name is `balance_to_income`. -/
theorem issuer_append_ne_b2i (v : String) :
    "issuer_" ++ v ≠ "balance_to_income" := by
  intro h
  have hd : ("issuer_" ++ v).data = "balance_to_income".data :=
    congrArg String.data h
  rw [String.data_append] at hd
  have hh := congrArg List.head? hd
  simp at hh

/-- Helper: no one-hot column name is `target`. -/
theorem issuer_append_ne_target (v : String) : "issuer_" ++ v ≠ "target" := by
  intro h
  have hd : ("issuer_" ++ v).data = "target".data := congrArg String.data h
  rw [String.data_append] at hd
  have hh := congrArg List.head? hd
  simp at hh

/-! Cell and row access lemmas. -/

/-- Helper: reading the written cell. -/
theorem updateCell_same (r : String → Features.Cell) (c : String)
    (v : Features.Cell) : Features.updateCell r c v c = v := if_pos rfl

/-- Helper: reading a different cell. -/
theorem updateCell_other (r : String → Features.Cell) (c : String)
    (v : Features.Cell) (c' : String) (h : c' ≠ c) :
    Features.updateCell r c v c' = r c' := if_neg h

/-! `addColumn` lemmas. -/

/-- Helper: column assignment preserves the row count. -/
theorem addColumn_rows_length (df : Features.DFrame) (c : String)
    (f : (String → Features.Cell) → Features.Cell) :
    (Features.addColumn df c f).rows.length = df.rows.length :=
  List.length_map _ _

/-- Helper: column assignment keeps every existing column. -/
theorem mem_addColumn_cols (df : Features.DFrame) (c : String)
    (f : (String → Features.Cell) → Features.Cell) {c' : String}
    (h : c' ∈ df.cols) : c' ∈ (Features.addColumn df c f).cols := by
  show c' ∈ (if c ∈ df.cols then df.cols else df.cols ++ [c])
  by_cases hc : c ∈ df.cols
  · rw [if_pos hc]; exact h
  · rw [if_neg hc]; exact List.mem_append_left _ h

/-- Helper: the columns after assignment are the old ones or the
assigned one. -/
theorem addColumn_cols_sub (df : Features.DFrame) (c : String)
    (f : (String → Features.Cell) → Features.Cell) {c' : String}
    (h : c' ∈ (Features.addColumn df c f).cols) : c' ∈ df.cols ∨ c' = c := by
  by_cases hc : c ∈ df.cols
  · left
    have : c' ∈ (if c ∈ df.cols then df.cols else df.cols ++ [c]) := h
    rwa [if_pos hc] at this
  · have : c' ∈ (if c ∈ df.cols then df.cols else df.cols ++ [c]) := h
    rw [if_neg hc] at this
    rcases List.mem_append.1 this with h1 | h2
    · exact Or.inl h1
    · exact Or.inr (List.mem_singleton.1 h2)

/-- Helper: reading a cell other than the assigned column passes
through a column assignment. -/
theorem addColumn_getD_ne (df : Features.DFrame) (c : String)
    (f : (String → Features.Cell) → Features.Cell) (c' : String) (i : Nat)
    (h : c' ≠ c) :
    ((Features.addColumn df c f).rows.getD i Features.dfltRow) c' =
      (df.rows.getD i Features.dfltRow) c' := by
  by_cases hi : i < df.rows.length
  · have : (Features.addColumn df c f).rows =
        df.rows.map (fun r => Features.updateCell r c (f r)) := rfl
    rw [this, getD_map_lt _ _ i hi _ Features.dfltRow]
    exact updateCell_other _ _ _ _ h
  · rw [List.getD_eq_default, List.getD_eq_default]
    · omega
    · rw [addColumn_rows_length]; omega

/-- Helper: reading the assigned column after a column assignment. -/
theorem addColumn_getD_self (df : Features.DFrame) (c : String)
    (f : (String → Features.Cell) → Features.Cell) (i : Nat)
    (h : i < df.rows.length) :
    ((Features.addColumn df c f).rows.getD i Features.dfltRow) c =
      f (df.rows.getD i Features.dfltRow) := by
  have : (Features.addColumn df c f).rows =
      df.rows.map (fun r => Features.updateCell r c (f r)) := rfl
  rw [this, getD_map_lt _ _ i h _ Features.dfltRow]
  exact updateCell_same _ _ _

/-! `addDateParts` lemmas. -/

/-- Helper: the date-part stage preserves the row count. -/
theorem addDateParts_rows_length (dp : Features.DateParts)
    (df : Features.DFrame) :
    (Features.addDateParts dp df).rows.length = df.rows.length := by
  unfold Features.addDateParts
  rw [addColumn_rows_length, addColumn_rows_length, addColumn_rows_length]

/-- Helper: the date-part stage keeps every existing column. -/
theorem mem_addDateParts_cols (dp : Features.DateParts)
    (df : Features.DFrame) {c' : String} (h : c' ∈ df.cols) :
    c' ∈ (Features.addDateParts dp df).cols :=
  mem_addColumn_cols _ _ _ (mem_addColumn_cols _ _ _ (mem_addColumn_cols _ _ _ h))

/-- Helper: the columns after the date-part stage are the old ones or a
date-part name. -/
theorem addDateParts_cols_sub (dp : Features.DateParts)
    (df : Features.DFrame) {c' : String}
    (h : c' ∈ (Features.addDateParts dp df).cols) :
    c' ∈ df.cols ∨ c' ∈ ["month", "day_of_week", "day_of_month"] := by
  rcases addColumn_cols_sub _ _ _ h with h1 | h1
  · rcases addColumn_cols_sub _ _ _ h1 with h2 | h2
    · rcases addColumn_cols_sub _ _ _ h2 with h3 | h3
      · exact Or.inl h3
      · exact Or.inr (by rw [h3]; simp)
    · exact Or.inr (by rw [h2]; simp)
  · exact Or.inr (by rw [h1]; simp)

/-- Helper: reading any cell other than the three date-part columns
passes through the date-part stage. -/
theorem addDateParts_getD_ne (dp : Features.DateParts)
    (df : Features.DFrame) (c' : String) (i : Nat)
    (h1 : c' ≠ "month") (h2 : c' ≠ "day_of_week") (h3 : c' ≠ "day_of_month") :
    ((Features.addDateParts dp df).rows.getD i Features.dfltRow) c' =
      (df.rows.getD i Features.dfltRow) c' := by
  unfold Features.addDateParts
  rw [addColumn_getD_ne _ _ _ _ _ h3, addColumn_getD_ne _ _ _ _ _ h2,
    addColumn_getD_ne _ _ _ _ _ h1]

/-! `addRatios` lemmas. -/

/-- Helper: the ratio stage preserves the row count. -/
theorem addRatios_rows_length (df : Features.DFrame) :
    (Features.addRatios df).rows.length = df.rows.length := by
  unfold Features.addRatios
  dsimp only
  by_cases h1 : "balance" ∈ df.cols ∧ "income" ∈ df.cols
  · rw [if_pos h1]
    split <;> simp [addColumn_rows_length]
  · rw [if_neg h1]
    split <;> simp [addColumn_rows_length]

/-- Helper: the ratio stage keeps every existing column. -/
theorem mem_addRatios_cols (df : Features.DFrame) {c' : String}
    (h : c' ∈ df.cols) : c' ∈ (Features.addRatios df).cols := by
  unfold Features.addRatios
  dsimp only
  by_cases h1 : "balance" ∈ df.cols ∧ "income" ∈ df.cols
  · rw [if_pos h1]
    split
    · exact mem_addColumn_cols _ _ _ (mem_addColumn_cols _ _ _ h)
    · exact mem_addColumn_cols _ _ _ h
  · rw [if_neg h1]
    split
    · exact mem_addColumn_cols _ _ _ h
    · exact h

/-- Helper: the columns after the ratio stage are the old ones or a
ratio name. -/
theorem addRatios_cols_sub (df : Features.DFrame) {c' : String}
    (h : c' ∈ (Features.addRatios df).cols) :
    c' ∈ df.cols ∨ c' ∈ ["balance_to_income", "transactions_to_income"] := by
  unfold Features.addRatios at h
  dsimp only at h
  by_cases h1 : "balance" ∈ df.cols ∧ "income" ∈ df.cols
  · rw [if_pos h1] at h
    split at h
    · rcases addColumn_cols_sub _ _ _ h with h2 | h2
      · rcases addColumn_cols_sub _ _ _ h2 with h3 | h3
        · exact Or.inl h3
        · exact Or.inr (by rw [h3]; simp)
      · exact Or.inr (by rw [h2]; simp)
    · rcases addColumn_cols_sub _ _ _ h with h2 | h2
      · exact Or.inl h2
      · exact Or.inr (by rw [h2]; simp)
  · rw [if_neg h1] at h
    split at h
    · rcases addColumn_cols_sub _ _ _ h with h2 | h2
      · exact Or.inl h2
      · exact Or.inr (by rw [h2]; simp)
    · exact Or.inl h

/-- Helper: reading any cell other than the two ratio columns passes
through the ratio stage. -/
theorem addRatios_getD_ne (df : Features.DFrame) (c' : String) (i : Nat)
    (h1 : c' ≠ "balance_to_income") (h2 : c' ≠ "transactions_to_income") :
    ((Features.addRatios df).rows.getD i Features.dfltRow) c' =
      (df.rows.getD i Features.dfltRow) c' := by
  unfold Features.addRatios
  dsimp only
  by_cases hb : "balance" ∈ df.cols ∧ "income" ∈ df.cols
  · rw [if_pos hb]
    split
    · rw [addColumn_getD_ne _ _ _ _ _ h2, addColumn_getD_ne _ _ _ _ _ h1]
    · rw [addColumn_getD_ne _ _ _ _ _ h1]
  · rw [if_neg hb]
    split
    · rw [addColumn_getD_ne _ _ _ _ _ h2]
    · rfl

/-- Helper: the `balance_to_income` cell written by the ratio stage:
the balance divided by the income with 0 (only) replaced by 1. -/
theorem addRatios_getD_b2i (df : Features.DFrame) (i : Nat)
    (hb : "balance" ∈ df.cols) (hi : "income" ∈ df.cols)
    (hlt : i < df.rows.length) :
    ((Features.addRatios df).rows.getD i Features.dfltRow) "balance_to_income" =
      Features.Cell.num
        (((df.rows.getD i Features.dfltRow) "balance").asNum /
          (if ((df.rows.getD i Features.dfltRow) "income").asNum = 0 then 1
           else ((df.rows.getD i Features.dfltRow) "income").asNum)) := by
  unfold Features.addRatios
  dsimp only
  rw [if_pos (show ("balance" ∈ df.cols ∧ "income" ∈ df.cols) from ⟨hb, hi⟩)]
  split
  · rw [addColumn_getD_ne _ _ _ _ _ (by decide)]
    exact addColumn_getD_self _ _ _ _ hlt
  · exact addColumn_getD_self _ _ _ _ hlt

/-! `dummyRow` and `addIssuerDummies` lemmas. -/

/-- Helper: the one-hot fold leaves every cell outside its written
columns unchanged. -/
theorem dummyFold_ne (r0 : String → Features.Cell) (c' : String) :
    ∀ (vals : List String) (racc : String → Features.Cell),
    (∀ v ∈ vals, c' ≠ "issuer_" ++ v) →
    (vals.foldl
      (fun r' v =>
        Features.updateCell r' ("issuer_" ++ v)
          (.num (if (r0 "issuer").asStr = v then 1 else 0)))
      racc) c' = racc c' := by
  intro vals
  induction vals with
  | nil => intro racc _; rfl
  | cons v t ih =>
    intro racc h
    show (t.foldl _ (Features.updateCell racc ("issuer_" ++ v) _)) c' = racc c'
    rw [ih _ (fun u hu => h u (List.mem_cons_of_mem _ hu))]
    exact updateCell_other _ _ _ _ (h v (List.mem_cons_self _ _))

/-- Helper: the one-hot fold writes the 0/1 indicator of its source
row's issuer into each written column. -/
theorem dummyFold_mem (r0 : String → Features.Cell) (v : String) :
    ∀ (vals : List String) (racc : String → Features.Cell),
    vals.Nodup → v ∈ vals →
    (vals.foldl
      (fun r' w =>
        Features.updateCell r' ("issuer_" ++ w)
          (.num (if (r0 "issuer").asStr = w then 1 else 0)))
      racc) ("issuer_" ++ v) =
      Features.Cell.num (if (r0 "issuer").asStr = v then 1 else 0) := by
  intro vals
  induction vals with
  | nil => intro racc _ hv; cases hv
  | cons w t ih =>
    intro racc hnd hv
    rcases List.mem_cons.1 hv with hvw | hvt
    · subst hvw
      show (t.foldl _ (Features.updateCell racc ("issuer_" ++ v) _)) _ = _
      rw [dummyFold_ne r0 _ t _ (fun u hu heq => by
        have := issuer_append_inj heq
        exact (List.nodup_cons.1 hnd).1 (this ▸ hu))]
      exact updateCell_same _ _ _
    · exact ih _ (List.nodup_cons.1 hnd).2 hvt

/-- Helper: the one-hot encoding stage preserves the row count. -/
theorem addIssuerDummies_rows_length (df : Features.DFrame) :
    (Features.addIssuerDummies df).rows.length = df.rows.length := by
  unfold Features.addIssuerDummies
  split
  · exact List.length_map _ _
  · rfl

/-- Helper: the one-hot encoding stage keeps every existing column. -/
theorem mem_addIssuerDummies_cols (df : Features.DFrame) {c' : String}
    (h : c' ∈ df.cols) : c' ∈ (Features.addIssuerDummies df).cols := by
  unfold Features.addIssuerDummies
  split
  · exact List.mem_append_left _ h
  · exact h

/-- Helper: the columns after the one-hot encoding stage are the old
ones or a one-hot name for some issuer value present in the data. -/
theorem addIssuerDummies_cols_sub (df : Features.DFrame) {c' : String}
    (h : c' ∈ (Features.addIssuerDummies df).cols) :
    c' ∈ df.cols ∨ ∃ v ∈ Features.issuerValues df, c' = "issuer_" ++ v := by
  unfold Features.addIssuerDummies at h
  split at h
  · rcases List.mem_append.1 h with h1 | h1
    · exact Or.inl h1
    · right
      obtain ⟨hmem, -⟩ := List.mem_filter.1 h1
      obtain ⟨v, hv, heq⟩ := List.mem_map.1 hmem
      exact ⟨v, hv, heq.symm⟩
  · exact Or.inl h

/-- Helper: each issuer value present in the data has its one-hot
column in the encoded table. -/
theorem mem_addIssuerDummies_cols_of_val (df : Features.DFrame)
    (hiss : "issuer" ∈ df.cols) {v : String}
    (hv : v ∈ Features.issuerValues df) :
    ("issuer_" ++ v) ∈ (Features.addIssuerDummies df).cols := by
  unfold Features.addIssuerDummies
  rw [if_pos hiss]
  by_cases hin : ("issuer_" ++ v) ∈ df.cols
  · exact List.mem_append_left _ hin
  · refine List.mem_append_right _ (List.mem_filter.2 ⟨List.mem_map.2 ⟨v, hv, rfl⟩, ?_⟩)
    simpa using hin

/-- Helper: the issuer value of every in-range row is collected by
`issuerValues`. -/
theorem issuerValue_mem (df : Features.DFrame) (i : Nat)
    (hlt : i < df.rows.length) :
    ((df.rows.getD i Features.dfltRow) "issuer").asStr ∈
      Features.issuerValues df :=
  List.mem_dedup.2 (List.mem_map.2 ⟨df.rows.getD i Features.dfltRow,
    getD_mem _ _ _ hlt, rfl⟩)

/-- Helper: reading a cell that is no one-hot column of the data passes
through the one-hot encoding stage. -/
theorem addIssuerDummies_getD_ne (df : Features.DFrame) (c' : String)
    (i : Nat) (h : ∀ v ∈ Features.issuerValues df, c' ≠ "issuer_" ++ v) :
    ((Features.addIssuerDummies df).rows.getD i Features.dfltRow) c' =
      (df.rows.getD i Features.dfltRow) c' := by
  unfold Features.addIssuerDummies
  split
  · by_cases hi : i < df.rows.length
    · rw [getD_map_lt _ _ i hi _ Features.dfltRow]
      exact dummyFold_ne _ _ _ _ h
    · rw [List.getD_eq_default, List.getD_eq_default]
      · omega
      · rw [List.length_map]; omega
  · rfl

/-- Helper: the one-hot cell for a present issuer value is that row's
0/1 indicator. -/
theorem addIssuerDummies_getD_dummy (df : Features.DFrame) (i : Nat)
    (hiss : "issuer" ∈ df.cols) {v : String}
    (hv : v ∈ Features.issuerValues df) (hlt : i < df.rows.length) :
    ((Features.addIssuerDummies df).rows.getD i Features.dfltRow)
        ("issuer_" ++ v) =
      Features.Cell.num
        (if (((df.rows.getD i Features.dfltRow) "issuer").asStr = v) then 1
         else 0) := by
  unfold Features.addIssuerDummies
  rw [if_pos hiss]
  show ((df.rows.map (Features.dummyRow (Features.issuerValues df))).getD i
    Features.dfltRow) ("issuer_" ++ v) = _
  rw [getD_map_lt _ _ i hlt _ Features.dfltRow]
  exact dummyFold_mem _ v _ _ (List.nodup_dedup _) hv

/-! `padColumnsWithZero` lemmas. -/

/-- Helper: zero-padding preserves the row count. -/
theorem padZero_rows_length (cs : List String) (keep : String → Bool)
    (df : Features.DFrame) :
    (Features.padColumnsWithZero cs keep df).rows.length = df.rows.length := by
  induction cs generalizing df with
  | nil => rfl
  | cons c t ih =>
    show (Features.padColumnsWithZero t keep _).rows.length = _
    rw [ih]
    split
    · exact List.length_map _ _
    · rfl

/-- Helper: zero-padding keeps every existing column. -/
theorem mem_padZero_cols (cs : List String) (keep : String → Bool)
    (df : Features.DFrame) {c' : String} (h : c' ∈ df.cols) :
    c' ∈ (Features.padColumnsWithZero cs keep df).cols := by
  induction cs generalizing df with
  | nil => exact h
  | cons c t ih =>
    show c' ∈ (Features.padColumnsWithZero t keep _).cols
    apply ih
    split
    · exact List.mem_append_left _ h
    · exact h

/-- Helper: the columns after zero-padding are the old ones or padded
ones. -/
theorem padZero_cols_sub (cs : List String) (keep : String → Bool)
    (df : Features.DFrame) {c' : String}
    (h : c' ∈ (Features.padColumnsWithZero cs keep df).cols) :
    c' ∈ df.cols ∨ c' ∈ cs := by
  induction cs generalizing df with
  | nil => exact Or.inl h
  | cons c t ih =>
    have h' : c' ∈ (Features.padColumnsWithZero t keep
        (if c ∉ df.cols ∧ keep c = true then
          { cols := df.cols ++ [c],
            rows := df.rows.map (fun r => Features.updateCell r c (.num 0)) }
         else df)).cols := h
    rcases ih _ h' with h1 | h1
    · split at h1
      · rcases List.mem_append.1 h1 with h2 | h2
        · exact Or.inl h2
        · exact Or.inr (by rw [List.mem_singleton.1 h2]; exact List.mem_cons_self _ _)
      · exact Or.inl h1
    · exact Or.inr (List.mem_cons_of_mem _ h1)

/-- Helper: a column already present is never rewritten by
zero-padding. -/
theorem padZero_getD_preserved (cs : List String) (keep : String → Bool)
    (df : Features.DFrame) (c' : String) (i : Nat) (h : c' ∈ df.cols) :
    ((Features.padColumnsWithZero cs keep df).rows.getD i Features.dfltRow) c' =
      (df.rows.getD i Features.dfltRow) c' := by
  induction cs generalizing df with
  | nil => rfl
  | cons c t ih =>
    show ((Features.padColumnsWithZero t keep _).rows.getD i Features.dfltRow) c' = _
    split
    · next hcond =>
      rw [ih _ (List.mem_append_left _ h)]
      by_cases hi : i < df.rows.length
      · rw [getD_map_lt _ _ i hi _ Features.dfltRow]
        exact updateCell_other _ _ _ _ (fun he => hcond.1 (he ▸ h))
      · rw [List.getD_eq_default, List.getD_eq_default]
        · omega
        · rw [List.length_map]; omega
    · exact ih _ h

/-- Helper: a column outside the padded list is never rewritten by
zero-padding. -/
theorem padZero_getD_not_mem (cs : List String) (keep : String → Bool)
    (df : Features.DFrame) (c' : String) (i : Nat) (h : c' ∉ cs) :
    ((Features.padColumnsWithZero cs keep df).rows.getD i Features.dfltRow) c' =
      (df.rows.getD i Features.dfltRow) c' := by
  induction cs generalizing df with
  | nil => rfl
  | cons c t ih =>
    show ((Features.padColumnsWithZero t keep _).rows.getD i Features.dfltRow) c' = _
    rw [ih _ (fun hc => h (List.mem_cons_of_mem _ hc))]
    split
    · by_cases hi : i < df.rows.length
      · rw [getD_map_lt _ _ i hi _ Features.dfltRow]
        exact updateCell_other _ _ _ _ (fun he => h (he ▸ List.mem_cons_self _ _))
      · rw [List.getD_eq_default, List.getD_eq_default]
        · omega
        · rw [List.length_map]; omega
    · rfl

/-- Helper: a kept column missing from the table is appended by
zero-padding and filled with zero in every row. -/
theorem padZero_added_zero (cs : List String) (keep : String → Bool)
    (df : Features.DFrame) (c : String) (hc : c ∈ cs)
    (hkeep : keep c = true) (habs : c ∉ df.cols) :
    c ∈ (Features.padColumnsWithZero cs keep df).cols ∧
    ∀ i, i < df.rows.length →
      ((Features.padColumnsWithZero cs keep df).rows.getD i Features.dfltRow) c =
        Features.Cell.num 0 := by
  induction cs generalizing df with
  | nil => cases hc
  | cons c0 t ih =>
    by_cases he : c0 = c
    · subst he
      have hcond : c0 ∉ df.cols ∧ keep c0 = true := ⟨habs, hkeep⟩
      have hstep : Features.padColumnsWithZero (c0 :: t) keep df =
          Features.padColumnsWithZero t keep
            { cols := df.cols ++ [c0],
              rows := df.rows.map (fun r => Features.updateCell r c0 (.num 0)) } := by
        show Features.padColumnsWithZero t keep _ = _
        rw [if_pos hcond]
      rw [hstep]
      have hmem : c0 ∈ (df.cols ++ [c0]) :=
        List.mem_append_right _ (List.mem_singleton.2 rfl)
      refine ⟨mem_padZero_cols _ _ _ hmem, ?_⟩
      intro i hi
      rw [padZero_getD_preserved _ _ _ _ _ hmem]
      rw [getD_map_lt _ _ i hi _ Features.dfltRow]
      exact updateCell_same _ _ _
    · have hct : c ∈ t := by
        rcases List.mem_cons.1 hc with h1 | h1
        · exact absurd h1.symm he
        · exact h1
      by_cases hcond : c0 ∉ df.cols ∧ keep c0 = true
      · have hstep : Features.padColumnsWithZero (c0 :: t) keep df =
            Features.padColumnsWithZero t keep
              { cols := df.cols ++ [c0],
                rows := df.rows.map (fun r => Features.updateCell r c0 (.num 0)) } := by
          show Features.padColumnsWithZero t keep _ = _
          rw [if_pos hcond]
        rw [hstep]
        have habs' : c ∉ df.cols ++ [c0] := by
          intro hmem
          rcases List.mem_append.1 hmem with h1 | h1
          · exact habs h1
          · exact he (List.mem_singleton.1 h1).symm
        obtain ⟨hm, hz⟩ := ih
          { cols := df.cols ++ [c0],
            rows := df.rows.map (fun r => Features.updateCell r c0 (Features.Cell.num 0)) }
          hct habs'
        refine ⟨hm, ?_⟩
        intro i hi
        exact hz i (by simpa using hi)
      · have hstep : Features.padColumnsWithZero (c0 :: t) keep df =
            Features.padColumnsWithZero t keep df := by
          show Features.padColumnsWithZero t keep _ = _
          rw [if_neg hcond]
        rw [hstep]
        exact ih df hct habs

/-! `setOwnIssuer` lemmas. -/

/-- Helper: the own-issuer pass leaves the column list unchanged. -/
theorem setOwnIssuer_cols (df : Features.DFrame) :
    (Features.setOwnIssuer df).cols = df.cols := by
  unfold Features.setOwnIssuer
  split <;> rfl

/-- Helper: the own-issuer pass preserves the row count. -/
theorem setOwnIssuer_rows_length (df : Features.DFrame) :
    (Features.setOwnIssuer df).rows.length = df.rows.length := by
  unfold Features.setOwnIssuer
  split
  · exact List.length_map _ _
  · rfl

/-- Helper: the own-issuer pass is the identity without an `issuer`
column. -/
theorem setOwnIssuer_no_issuer (df : Features.DFrame)
    (h : "issuer" ∉ df.cols) : Features.setOwnIssuer df = df := by
  unfold Features.setOwnIssuer
  exact if_neg h

/-- Helper: with an `issuer` column, a row whose own one-hot column
exists becomes that row with the one-hot cell forced to 1. -/
theorem setOwnIssuer_getD_hit (df : Features.DFrame) (i : Nat)
    (hiss : "issuer" ∈ df.cols) (hlt : i < df.rows.length)
    (htgt : ("issuer_" ++ ((df.rows.getD i Features.dfltRow) "issuer").asStr) ∈ df.cols) :
    (Features.setOwnIssuer df).rows.getD i Features.dfltRow =
      Features.updateCell (df.rows.getD i Features.dfltRow)
        ("issuer_" ++ ((df.rows.getD i Features.dfltRow) "issuer").asStr)
        (Features.Cell.num 1) := by
  unfold Features.setOwnIssuer
  rw [if_pos hiss]
  show ((df.rows.map _).getD i Features.dfltRow) = _
  rw [getD_map_lt _ _ i hlt _ Features.dfltRow]
  exact if_pos htgt

/-- Helper: with an `issuer` column, a row whose own one-hot column is
absent is left unchanged. -/
theorem setOwnIssuer_getD_miss (df : Features.DFrame) (i : Nat)
    (hiss : "issuer" ∈ df.cols) (hlt : i < df.rows.length)
    (htgt : ("issuer_" ++ ((df.rows.getD i Features.dfltRow) "issuer").asStr) ∉ df.cols) :
    (Features.setOwnIssuer df).rows.getD i Features.dfltRow =
      df.rows.getD i Features.dfltRow := by
  unfold Features.setOwnIssuer
  rw [if_pos hiss]
  show ((df.rows.map _).getD i Features.dfltRow) = _
  rw [getD_map_lt _ _ i hlt _ Features.dfltRow]
  exact if_neg htgt

/-- Helper: no one-hot column name is a date-part or ratio column. -/
theorem issuer_append_ne_derived (v : String) :
    "issuer_" ++ v ≠ "month" ∧ "issuer_" ++ v ≠ "day_of_week" ∧
    "issuer_" ++ v ≠ "day_of_month" ∧
    "issuer_" ++ v ≠ "transactions_to_income" := by
  refine ⟨?_, ?_, ?_, ?_⟩ <;>
    · intro h
      have hd := congrArg String.data h
      rw [String.data_append] at hd
      have hh := congrArg List.head? hd
      simp at hh

/-! `processStructured` composite lemmas. -/

/-- Helper: feature processing preserves the row count. -/
theorem processStructured_rows_length (dp : Features.DateParts)
    (df : Features.DFrame) :
    (Features.processStructured dp df).rows.length = df.rows.length := by
  unfold Features.processStructured
  rw [addIssuerDummies_rows_length, addRatios_rows_length,
    addDateParts_rows_length]

/-- Helper: feature processing keeps every existing column. -/
theorem mem_processStructured_cols (dp : Features.DateParts)
    (df : Features.DFrame) {c' : String} (h : c' ∈ df.cols) :
    c' ∈ (Features.processStructured dp df).cols :=
  mem_addIssuerDummies_cols _
    (mem_addRatios_cols _ (mem_addDateParts_cols _ _ h))

/-- Helper: the columns after feature processing are the old ones, a
derived-feature name, or a one-hot name of a present issuer value. -/
theorem processStructured_cols_sub (dp : Features.DateParts)
    (df : Features.DFrame) {c' : String}
    (h : c' ∈ (Features.processStructured dp df).cols) :
    c' ∈ df.cols ∨
    c' ∈ ["month", "day_of_week", "day_of_month", "balance_to_income",
          "transactions_to_income"] ∨
    ∃ v ∈ Features.issuerValues (Features.addRatios (Features.addDateParts dp df)),
      c' = "issuer_" ++ v := by
  rcases addIssuerDummies_cols_sub _ h with h1 | h1
  · rcases addRatios_cols_sub _ h1 with h2 | h2
    · rcases addDateParts_cols_sub _ _ h2 with h3 | h3
      · exact Or.inl h3
      · exact Or.inr (Or.inl (by fin_cases h3 <;> simp))
    · exact Or.inr (Or.inl (by fin_cases h2 <;> simp))
  · exact Or.inr (Or.inr h1)

/-- Helper: the `issuer` cell is never rewritten by the date-part and
ratio stages. -/
theorem ratiosDates_getD_issuer (dp : Features.DateParts)
    (df : Features.DFrame) (i : Nat) :
    ((Features.addRatios (Features.addDateParts dp df)).rows.getD i
        Features.dfltRow) "issuer" =
      (df.rows.getD i Features.dfltRow) "issuer" := by
  rw [addRatios_getD_ne _ _ _ (by decide) (by decide),
    addDateParts_getD_ne _ _ _ _ (by decide) (by decide) (by decide)]

/-- Helper: the `issuer` cell is never rewritten by feature
processing. -/
theorem processStructured_getD_issuer (dp : Features.DateParts)
    (df : Features.DFrame) (i : Nat) :
    ((Features.processStructured dp df).rows.getD i Features.dfltRow) "issuer" =
      (df.rows.getD i Features.dfltRow) "issuer" := by
  unfold Features.processStructured
  rw [addIssuerDummies_getD_ne _ _ _
    (fun v _ => (issuer_append_ne_issuer v).symm)]
  exact ratiosDates_getD_issuer dp df i

/-- Helper: the `balance_to_income` cell produced by feature processing
divides the row's balance by its income with (only) an exact zero
replaced by 1. -/
theorem processStructured_b2i (dp : Features.DateParts)
    (df : Features.DFrame) (hb : "balance" ∈ df.cols)
    (hi : "income" ∈ df.cols) (i : Nat) (hlt : i < df.rows.length) :
    ((Features.processStructured dp df).rows.getD i Features.dfltRow)
        "balance_to_income" =
      Features.Cell.num
        (((df.rows.getD i Features.dfltRow) "balance").asNum /
          (if ((df.rows.getD i Features.dfltRow) "income").asNum = 0 then 1
           else ((df.rows.getD i Features.dfltRow) "income").asNum)) := by
  unfold Features.processStructured
  rw [addIssuerDummies_getD_ne _ _ _
    (fun v _ => (issuer_append_ne_b2i v).symm)]
  rw [addRatios_getD_b2i _ _ (mem_addDateParts_cols _ _ hb)
    (mem_addDateParts_cols _ _ hi)
    (by rw [addDateParts_rows_length]; exact hlt)]
  rw [addDateParts_getD_ne _ _ "balance" _ (by decide) (by decide) (by decide),
    addDateParts_getD_ne _ _ "income" _ (by decide) (by decide) (by decide)]

/-- C8 (amended): for every row processed by feature engineering, the
derived `balance_to_income` column equals `balance` divided by the
income with an income of exactly 0 replaced by 1
(`income.replace(0, 1)`), which differs from `max(income, 1)` for
incomes strictly between 0 and 1 (and for negative incomes). -/
theorem C8_balance_to_income_replace_zero (dp : Features.DateParts)
    (df : Features.DFrame) (hb : "balance" ∈ df.cols)
    (hi : "income" ∈ df.cols) (i : Nat) (hlt : i < df.rows.length) :
    ((Features.processStructured dp df).rows.getD i Features.dfltRow)
        "balance_to_income" =
      Features.Cell.num
        (((df.rows.getD i Features.dfltRow) "balance").asNum /
          (if ((df.rows.getD i Features.dfltRow) "income").asNum = 0 then 1
           else ((df.rows.getD i Features.dfltRow) "income").asNum)) :=
  processStructured_b2i dp df hb hi i hlt

/-- Witness for C8's amended statement, at the one-row fixture with
income 1/2 and balance 1. -/
theorem C8_balance_to_income_replace_zero_witness :
    "balance" ∈ Fixtures.dfHalfIncome.cols ∧
    "income" ∈ Fixtures.dfHalfIncome.cols ∧
    0 < Fixtures.dfHalfIncome.rows.length ∧
    ((Features.processStructured Fixtures.dpTriv Fixtures.dfHalfIncome).rows.getD 0
        Features.dfltRow) "balance_to_income" =
      Features.Cell.num
        (((Fixtures.dfHalfIncome.rows.getD 0 Features.dfltRow) "balance").asNum /
          (if ((Fixtures.dfHalfIncome.rows.getD 0 Features.dfltRow) "income").asNum = 0
           then 1
           else ((Fixtures.dfHalfIncome.rows.getD 0 Features.dfltRow) "income").asNum)) :=
  ⟨by decide, by decide, by decide,
   C8_balance_to_income_replace_zero Fixtures.dpTriv Fixtures.dfHalfIncome
     (by decide) (by decide) 0 (by decide)⟩

/-- C8 counterexample: on a row with balance 1 and income 1/2 the code
computes `balance_to_income = 2` (income is not zero, so it is used as
is), while the claimed formula `balance / max(income, 1)` gives 1. -/
theorem C8_balance_to_income_counterexample :
    ((Features.processStructured Fixtures.dpTriv Fixtures.dfHalfIncome).rows.getD 0
        Features.dfltRow) "balance_to_income" = Features.Cell.num 2 ∧
    (2 : ℚ) ≠ 1 / max ((1 : ℚ) / 2) 1 := by
  constructor
  · have h := processStructured_b2i Fixtures.dpTriv Fixtures.dfHalfIncome
      (by decide) (by decide) 0 (by decide)
    rw [h]
    have hbal : (Fixtures.dfHalfIncome.rows.getD 0 Features.dfltRow) "balance" =
        Features.Cell.num 1 := rfl
    have hinc : (Fixtures.dfHalfIncome.rows.getD 0 Features.dfltRow) "income" =
        Features.Cell.num (1 / 2) := rfl
    rw [hbal, hinc]
    norm_num [Features.Cell.asNum]
  · have hmax : max ((1 : ℚ) / 2) 1 = 1 := max_eq_right (by norm_num)
    rw [hmax]
    norm_num

/-! `transform` composite lemmas (news table absent). -/

/-- Helper: `transform` without a news table is the padding and
own-issuer pipeline over the processed table. -/
theorem transform_none_eq (fc : List String) (dp : Features.DateParts)
    (df : Features.DFrame) :
    Features.transform fc dp df none =
      Features.setOwnIssuer (Features.padKnownIssuerCols
        (Features.padMissingFeatures fc (Features.processStructured dp df))) := rfl

/-- Helper: the padding pipeline preserves the row count. -/
theorem padded_rows_length (fc : List String) (dp : Features.DateParts)
    (df : Features.DFrame) :
    (Features.padKnownIssuerCols (Features.padMissingFeatures fc
      (Features.processStructured dp df))).rows.length = df.rows.length := by
  unfold Features.padKnownIssuerCols Features.padMissingFeatures
  rw [padZero_rows_length, padZero_rows_length, processStructured_rows_length]

/-- Helper: every processed column survives the padding pipeline. -/
theorem mem_padded_cols (fc : List String) (dp : Features.DateParts)
    (df : Features.DFrame) {c' : String}
    (h : c' ∈ (Features.processStructured dp df).cols) :
    c' ∈ (Features.padKnownIssuerCols (Features.padMissingFeatures fc
      (Features.processStructured dp df))).cols := by
  unfold Features.padKnownIssuerCols Features.padMissingFeatures
  exact mem_padZero_cols _ _ _ (mem_padZero_cols _ _ _ h)

/-- Helper: the padding pipeline never rewrites the `issuer` cell. -/
theorem padded_getD_issuer (fc : List String) (dp : Features.DateParts)
    (df : Features.DFrame) (hiss : "issuer" ∈ df.cols) (i : Nat) :
    ((Features.padKnownIssuerCols (Features.padMissingFeatures fc
        (Features.processStructured dp df))).rows.getD i Features.dfltRow)
        "issuer" =
      (df.rows.getD i Features.dfltRow) "issuer" := by
  unfold Features.padKnownIssuerCols Features.padMissingFeatures
  rw [padZero_getD_preserved _ _ _ _ _
    (mem_padZero_cols _ _ _ (mem_processStructured_cols dp df hiss))]
  rw [padZero_getD_preserved _ _ _ _ _ (mem_processStructured_cols dp df hiss)]
  exact processStructured_getD_issuer dp df i

/-- Helper: each row's own one-hot column is created by the encoding
stage. -/
theorem own_issuer_col_mem_processed (dp : Features.DateParts)
    (df : Features.DFrame) (hiss : "issuer" ∈ df.cols) (i : Nat)
    (hlt : i < df.rows.length) :
    ("issuer_" ++ ((df.rows.getD i Features.dfltRow) "issuer").asStr) ∈
      (Features.processStructured dp df).cols := by
  have hS : "issuer" ∈ (Features.addRatios (Features.addDateParts dp df)).cols :=
    mem_addRatios_cols _ (mem_addDateParts_cols _ _ hiss)
  have hlt' : i < (Features.addRatios (Features.addDateParts dp df)).rows.length := by
    rw [addRatios_rows_length, addDateParts_rows_length]; exact hlt
  have hv := issuerValue_mem (Features.addRatios (Features.addDateParts dp df)) i hlt'
  rw [ratiosDates_getD_issuer] at hv
  exact mem_addIssuerDummies_cols_of_val _ hS hv

/-- Helper: the `issuer` column survives the padding pipeline. -/
theorem issuer_mem_padded (fc : List String) (dp : Features.DateParts)
    (df : Features.DFrame) (hiss : "issuer" ∈ df.cols) :
    "issuer" ∈ (Features.padKnownIssuerCols (Features.padMissingFeatures fc
      (Features.processStructured dp df))).cols :=
  mem_padded_cols fc dp df (mem_processStructured_cols dp df hiss)

/-- Helper: without an `issuer` column in the input (and none remembered
from fitting) the padded table has no `issuer` column either. -/
theorem issuer_not_mem_padded (fc : List String) (dp : Features.DateParts)
    (df : Features.DFrame) (hiss : "issuer" ∉ df.cols)
    (hfc : "issuer" ∉ fc) :
    "issuer" ∉ (Features.padKnownIssuerCols (Features.padMissingFeatures fc
      (Features.processStructured dp df))).cols := by
  unfold Features.padKnownIssuerCols Features.padMissingFeatures
  intro h
  rcases padZero_cols_sub _ _ _ h with h1 | h1
  · rcases padZero_cols_sub _ _ _ h1 with h2 | h2
    · rcases processStructured_cols_sub dp df h2 with h3 | h3 | h3
      · exact hiss h3
      · exact absurd h3 (by decide)
      · obtain ⟨v, -, he⟩ := h3
        exact issuer_append_ne_issuer v he.symm
    · exact hfc h2
  · obtain ⟨code, -, he⟩ := List.mem_map.1 h1
    exact issuer_append_ne_issuer code he

/-- Helper: every known one-hot column is present after the padding
pipeline. -/
theorem known_col_mem_padded (fc : List String) (dp : Features.DateParts)
    (df : Features.DFrame) {code : String}
    (hcode : code ∈ Features.knownIssuers) :
    ("issuer_" ++ code) ∈ (Features.padKnownIssuerCols
      (Features.padMissingFeatures fc (Features.processStructured dp df))).cols := by
  unfold Features.padKnownIssuerCols
  by_cases h : ("issuer_" ++ code) ∈
      (Features.padMissingFeatures fc (Features.processStructured dp df)).cols
  · exact mem_padZero_cols _ _ _ h
  · exact (padZero_added_zero _ _ _ _ (List.mem_map.2 ⟨code, hcode, rfl⟩) rfl h).1

/-- Helper: after the padding pipeline, a known one-hot column not
present in the raw input holds 0 in every row whose issuer differs from
its code. -/
theorem padded_known_zero (fc : List String) (dp : Features.DateParts)
    (df : Features.DFrame) (hiss : "issuer" ∈ df.cols) (code : String)
    (hcode : code ∈ Features.knownIssuers)
    (hnohc : ("issuer_" ++ code) ∉ df.cols) (i : Nat)
    (hlt : i < df.rows.length)
    (hneq : ((df.rows.getD i Features.dfltRow) "issuer").asStr ≠ code) :
    ((Features.padKnownIssuerCols (Features.padMissingFeatures fc
        (Features.processStructured dp df))).rows.getD i Features.dfltRow)
        ("issuer_" ++ code) = Features.Cell.num 0 := by
  unfold Features.padKnownIssuerCols Features.padMissingFeatures
  by_cases hP : ("issuer_" ++ code) ∈ (Features.processStructured dp df).cols
  · have hPval : ((Features.processStructured dp df).rows.getD i Features.dfltRow)
        ("issuer_" ++ code) = Features.Cell.num 0 := by
      rcases processStructured_cols_sub dp df hP with h1 | h1 | h1
      · exact absurd h1 hnohc
      · exfalso
        obtain ⟨hm1, hm2, hm3, hm4⟩ := issuer_append_ne_derived code
        simp only [List.mem_cons, List.not_mem_nil, or_false] at h1
        rcases h1 with h | h | h | h | h
        · exact hm1 h
        · exact hm2 h
        · exact hm3 h
        · exact issuer_append_ne_b2i code h
        · exact hm4 h
      · obtain ⟨v, hvmem, he⟩ := h1
        have hvc : code = v := issuer_append_inj he
        subst hvc
        have hS : "issuer" ∈ (Features.addRatios (Features.addDateParts dp df)).cols :=
          mem_addRatios_cols _ (mem_addDateParts_cols _ _ hiss)
        have hlt' : i < (Features.addRatios (Features.addDateParts dp df)).rows.length := by
          rw [addRatios_rows_length, addDateParts_rows_length]; exact hlt
        unfold Features.processStructured
        rw [addIssuerDummies_getD_dummy _ _ hS hvmem hlt']
        rw [ratiosDates_getD_issuer]
        rw [if_neg hneq]
    rw [padZero_getD_preserved _ _ _ _ _ (mem_padZero_cols _ _ _ hP),
      padZero_getD_preserved _ _ _ _ _ hP]
    exact hPval
  · by_cases hfcm : ("issuer_" ++ code) ∈ fc
    · have hkeep : (fun c => ! (c == "target")) ("issuer_" ++ code) = true := by
        simp only [Bool.not_eq_true', beq_eq_false_iff_ne]
        exact issuer_append_ne_target code
      obtain ⟨hm, hz⟩ := padZero_added_zero fc (fun c => ! (c == "target"))
        (Features.processStructured dp df) _ hfcm hkeep hP
      rw [padZero_getD_preserved _ _ _ _ _ hm]
      exact hz i (by rw [processStructured_rows_length]; exact hlt)
    · have hQ : ("issuer_" ++ code) ∉ (Features.padColumnsWithZero fc
          (fun c => ! (c == "target")) (Features.processStructured dp df)).cols := by
        intro h
        rcases padZero_cols_sub _ _ _ h with h1 | h1
        · exact hP h1
        · exact hfcm h1
      obtain ⟨-, hz⟩ := padZero_added_zero
        (Features.knownIssuers.map (fun code => "issuer_" ++ code)) (fun _ => true)
        _ ("issuer_" ++ code) (List.mem_map.2 ⟨code, hcode, rfl⟩) rfl hQ
      exact hz i (by rw [padZero_rows_length, processStructured_rows_length]; exact hlt)

/-- C7: schema parity of `FeatureProcessor.transform` on a raw serving
table (no pre-existing one-hot columns, and `issuer` itself is never a
remembered feature column): (i) every remembered feature column other
than `target` that is absent from the processed data is added and holds
zero in every row; (ii) all four known `issuer_<CODE>` columns are
present in the output; (iii) a row whose issuer is a known code has
exactly that code's column set to 1 and the other known columns 0;
(iv) a row with an unseen issuer has all four known columns 0. -/
theorem C7_transform_schema_parity (fc : List String)
    (dp : Features.DateParts) (df : Features.DFrame)
    (hfc : "issuer" ∉ fc)
    (hnoh : ∀ code ∈ Features.knownIssuers, ("issuer_" ++ code) ∉ df.cols) :
    (∀ c ∈ fc, c ≠ "target" → c ∉ (Features.processStructured dp df).cols →
      c ∈ (Features.transform fc dp df none).cols ∧
      ∀ i, i < df.rows.length →
        ((Features.transform fc dp df none).rows.getD i Features.dfltRow) c =
          Features.Cell.num 0) ∧
    (∀ code ∈ Features.knownIssuers,
      ("issuer_" ++ code) ∈ (Features.transform fc dp df none).cols) ∧
    ("issuer" ∈ df.cols →
      ∀ i, i < df.rows.length →
      ∀ code ∈ Features.knownIssuers,
        (df.rows.getD i Features.dfltRow) "issuer" = Features.Cell.str code →
        ((Features.transform fc dp df none).rows.getD i Features.dfltRow)
            ("issuer_" ++ code) = Features.Cell.num 1 ∧
        ∀ other ∈ Features.knownIssuers, other ≠ code →
          ((Features.transform fc dp df none).rows.getD i Features.dfltRow)
              ("issuer_" ++ other) = Features.Cell.num 0) ∧
    ("issuer" ∈ df.cols →
      ∀ i, i < df.rows.length →
      ∀ s, (df.rows.getD i Features.dfltRow) "issuer" = Features.Cell.str s →
        s ∉ Features.knownIssuers →
        ∀ code ∈ Features.knownIssuers,
          ((Features.transform fc dp df none).rows.getD i Features.dfltRow)
              ("issuer_" ++ code) = Features.Cell.num 0) := by
  simp only [transform_none_eq]
  set R := Features.padKnownIssuerCols (Features.padMissingFeatures fc
    (Features.processStructured dp df)) with hRdef
  have hlenR : R.rows.length = df.rows.length := padded_rows_length fc dp df
  refine ⟨?_, ?_, ?_, ?_⟩
  · intro c hc htarget hcP
    have hkeep : (fun c' => ! (c' == "target")) c = true := by
      simp only [Bool.not_eq_true', beq_eq_false_iff_ne]
      exact htarget
    have hQ := padZero_added_zero fc (fun c' => ! (c' == "target"))
      (Features.processStructured dp df) c hc hkeep hcP
    have hmR : c ∈ R.cols := by
      rw [hRdef]
      unfold Features.padKnownIssuerCols
      exact mem_padZero_cols _ _ _ hQ.1
    have hzR : ∀ i, i < df.rows.length →
        (R.rows.getD i Features.dfltRow) c = Features.Cell.num 0 := by
      intro i hi
      have h1 : (R.rows.getD i Features.dfltRow) c =
          ((Features.padMissingFeatures fc
            (Features.processStructured dp df)).rows.getD i Features.dfltRow) c := by
        rw [hRdef]
        exact padZero_getD_preserved _ _ _ _ _ hQ.1
      rw [h1]
      exact hQ.2 i (by rw [processStructured_rows_length]; exact hi)
    refine ⟨?_, ?_⟩
    · rw [setOwnIssuer_cols]
      exact hmR
    · intro i hi
      have hiR : i < R.rows.length := by rw [hlenR]; exact hi
      by_cases hiss : "issuer" ∈ df.cols
      · have hissR : "issuer" ∈ R.cols := issuer_mem_padded fc dp df hiss
        have hval : (R.rows.getD i Features.dfltRow) "issuer" =
            (df.rows.getD i Features.dfltRow) "issuer" :=
          padded_getD_issuer fc dp df hiss i
        have htgtP := own_issuer_col_mem_processed dp df hiss i hi
        have htgtR : ("issuer_" ++ ((R.rows.getD i Features.dfltRow) "issuer").asStr)
            ∈ R.cols := by
          rw [hval]
          exact mem_padded_cols fc dp df htgtP
        have hne : c ≠
            "issuer_" ++ ((R.rows.getD i Features.dfltRow) "issuer").asStr := by
          rw [hval]
          intro he
          exact hcP (he ▸ htgtP)
        rw [setOwnIssuer_getD_hit _ i hissR hiR htgtR,
          updateCell_other _ _ _ _ hne]
        exact hzR i hi
      · have hnR : "issuer" ∉ R.cols := issuer_not_mem_padded fc dp df hiss hfc
        rw [setOwnIssuer_no_issuer _ hnR]
        exact hzR i hi
  · intro code hcode
    rw [setOwnIssuer_cols]
    exact known_col_mem_padded fc dp df hcode
  · intro hiss i hi code hcode hval0
    have hiR : i < R.rows.length := by rw [hlenR]; exact hi
    have hissR : "issuer" ∈ R.cols := issuer_mem_padded fc dp df hiss
    have hvalR : (R.rows.getD i Features.dfltRow) "issuer" =
        Features.Cell.str code := by
      rw [padded_getD_issuer fc dp df hiss i]
      exact hval0
    have htgtR : ("issuer_" ++ ((R.rows.getD i Features.dfltRow) "issuer").asStr)
        ∈ R.cols := by
      rw [hvalR]
      exact known_col_mem_padded fc dp df hcode
    have hhit := setOwnIssuer_getD_hit _ i hissR hiR htgtR
    rw [hvalR] at hhit
    simp only [Features.Cell.asStr] at hhit
    constructor
    · rw [hhit]
      exact updateCell_same _ _ _
    · intro other hother hne
      rw [hhit, updateCell_other _ _ _ _ (fun he => hne (issuer_append_inj he))]
      exact padded_known_zero fc dp df hiss other hother (hnoh other hother) i hi
        (by rw [hval0]; exact Ne.symm hne)
  · intro hiss i hi s hval0 hs code hcode
    have hiR : i < R.rows.length := by rw [hlenR]; exact hi
    have hissR : "issuer" ∈ R.cols := issuer_mem_padded fc dp df hiss
    have hvalR : (R.rows.getD i Features.dfltRow) "issuer" =
        Features.Cell.str s := by
      rw [padded_getD_issuer fc dp df hiss i]
      exact hval0
    have hzero := padded_known_zero fc dp df hiss code hcode (hnoh code hcode) i hi
      (by
        rw [hval0]
        intro he
        simp only [Features.Cell.asStr] at he
        exact hs (he.symm ▸ hcode))
    by_cases htgt : ("issuer_" ++ ((R.rows.getD i Features.dfltRow) "issuer").asStr)
        ∈ R.cols
    · have hhit := setOwnIssuer_getD_hit _ i hissR hiR htgt
      rw [hvalR] at hhit
      simp only [Features.Cell.asStr] at hhit
      rw [hhit, updateCell_other _ _ _ _
        (fun he => hs (by
          have h2 := issuer_append_inj he
          rw [← h2]
          exact hcode))]
      exact hzero
    · rw [setOwnIssuer_getD_miss _ i hissR hiR htgt]
      exact hzero

/-- Witness for C7: transforming the two-row serving fixture (a known
issuer `ABC` and an unseen issuer `NEW`) sets `issuer_ABC` to 1 and
`issuer_LMN` to 0 on the first row, and leaves `issuer_XYZ` 0 on the
unseen-issuer row. -/
theorem C7_transform_schema_parity_witness :
    ("issuer" ∈ Fixtures.dfServing.cols) ∧
    (∀ code ∈ Features.knownIssuers,
      ("issuer_" ++ code) ∉ Fixtures.dfServing.cols) ∧
    ((Features.transform [] Fixtures.dpTriv Fixtures.dfServing none).rows.getD 0
        Features.dfltRow) ("issuer_" ++ "ABC") = Features.Cell.num 1 ∧
    ((Features.transform [] Fixtures.dpTriv Fixtures.dfServing none).rows.getD 0
        Features.dfltRow) ("issuer_" ++ "LMN") = Features.Cell.num 0 ∧
    ((Features.transform [] Fixtures.dpTriv Fixtures.dfServing none).rows.getD 1
        Features.dfltRow) ("issuer_" ++ "XYZ") = Features.Cell.num 0 := by
  have h := C7_transform_schema_parity [] Fixtures.dpTriv Fixtures.dfServing
    (by decide) (by decide)
  have hc := h.2.2.1 (by decide) 0 (by decide) "ABC" (by decide) (by decide)
  have hd := h.2.2.2 (by decide) 1 (by decide) "NEW" (by decide) (by decide)
    "XYZ" (by decide)
  exact ⟨by decide, by decide, hc.1, hc.2 "LMN" (by decide) (by decide), hd⟩

/-! `ks_stat` lemmas. -/

/-- Helper: the score-sorted labels are a permutation of the labels. -/
theorem labelsByScore_perm (yTrue yScore : List ℚ)
    (hlen : yTrue.length = yScore.length) :
    (Metrics.labelsByScore yTrue yScore).Perm yTrue := by
  have h1 : (Metrics.labelsByScore yTrue yScore).Perm
      ((yScore.zip yTrue).map (fun p => p.2)) :=
    (List.mergeSort_perm _ _).map _
  have h2 : (yScore.zip yTrue).map (fun p => p.2) = yTrue :=
    map_snd_zip_of_length_eq _ _ hlen
  rw [h2] at h1
  exact h1

/-- Helper: a list of ones sums to its length. -/
theorem sum_eq_length_of_all_one (l : List ℚ) (h : ∀ x ∈ l, x = 1) :
    l.sum = (l.length : ℚ) := by
  induction l with
  | nil => simp
  | cons a t ih =>
    rw [List.sum_cons, h a (List.mem_cons_self _ _),
      ih (fun x hx => h x (List.mem_cons_of_mem _ hx))]
    push_cast [List.length_cons]
    ring

/-- Helper: the sum of the complemented labels `1 - y`. -/
theorem sum_one_sub (l : List ℚ) :
    (l.map (fun v => 1 - v)).sum = (l.length : ℚ) - l.sum := by
  induction l with
  | nil => simp
  | cons a t ih =>
    rw [List.map_cons, List.sum_cons, List.sum_cons, ih]
    push_cast [List.length_cons]
    ring

/-- Helper: running prefix sums have the input's length. -/
theorem cumSumsFrom_length (a : ℚ) (l : List ℚ) :
    (Metrics.cumSumsFrom a l).length = l.length := by
  induction l generalizing a with
  | nil => rfl
  | cons x xs ih =>
    show (Metrics.cumSumsFrom (a + x) xs).length + 1 = xs.length + 1
    rw [ih]

/-- Helper: with nonnegative entries every running prefix sum lies
between the start and the start plus the total. -/
theorem cumSumsFrom_bounds (l : List ℚ) :
    ∀ (a : ℚ), (∀ x ∈ l, 0 ≤ x) →
    ∀ c ∈ Metrics.cumSumsFrom a l, a ≤ c ∧ c ≤ a + l.sum := by
  induction l with
  | nil => intro a _ c hc; cases hc
  | cons x xs ih =>
    intro a hpos c hc
    have hx : 0 ≤ x := hpos x (List.mem_cons_self _ _)
    have hxs : ∀ z ∈ xs, 0 ≤ z := fun z hz => hpos z (List.mem_cons_of_mem _ hz)
    have hsum : 0 ≤ xs.sum := List.sum_nonneg hxs
    rcases List.mem_cons.1 hc with h | h
    · rw [h, List.sum_cons]
      constructor <;> linarith
    · obtain ⟨h1, h2⟩ := ih (a + x) hxs c h
      rw [List.sum_cons]
      constructor <;> linarith

/-- Helper: a fold by `max` is at least its start. -/
theorem le_foldl_max (t : List ℚ) : ∀ a : ℚ, a ≤ t.foldl max a := by
  induction t with
  | nil => intro a; exact le_refl a
  | cons x xs ih =>
    intro a
    exact le_trans (le_max_left a x) (ih (max a x))

/-- Helper: a fold by `max` of entries at most 1 from a start at most 1
stays at most 1. -/
theorem foldl_max_le (t : List ℚ) :
    ∀ a : ℚ, a ≤ 1 → (∀ x ∈ t, x ≤ 1) → t.foldl max a ≤ 1 := by
  induction t with
  | nil => intro a ha _; exact ha
  | cons x xs ih =>
    intro a ha h
    exact ih (max a x) (max_le ha (h x (List.mem_cons_self _ _)))
      (fun z hz => h z (List.mem_cons_of_mem _ hz))

/-- Helper: `np.max` of a nonempty array of values in `[0, 1]` lies in
`[0, 1]`. -/
theorem npMax_bounds (l : List ℚ) (hne : l ≠ [])
    (h : ∀ x ∈ l, 0 ≤ x ∧ x ≤ 1) :
    0 ≤ Metrics.npMax l ∧ Metrics.npMax l ≤ 1 := by
  cases l with
  | nil => exact absurd rfl hne
  | cons a t =>
    have h0 : Metrics.npMax (a :: t) = (a :: t).foldl max a := rfl
    rw [h0]
    constructor
    · have h1 := le_foldl_max (a :: t) a
      have h2 := (h a (List.mem_cons_self _ _)).1
      linarith
    · exact foldl_max_le (a :: t) a (h a (List.mem_cons_self _ _)).2
        (fun z hz => (h z hz).2)

/-- Helper: elementwise absolute gaps of two `[0, 1]`-valued lists lie
in `[0, 1]`. -/
theorem zipWith_abs_bounds (as : List ℚ) :
    ∀ bs : List ℚ, (∀ a ∈ as, 0 ≤ a ∧ a ≤ 1) → (∀ b ∈ bs, 0 ≤ b ∧ b ≤ 1) →
    ∀ x ∈ List.zipWith (fun a b => |a - b|) as bs, 0 ≤ x ∧ x ≤ 1 := by
  induction as with
  | nil => intro bs _ _ x hx; cases hx
  | cons a at' ih =>
    intro bs ha hb x hx
    cases bs with
    | nil => cases hx
    | cons b bt =>
      rcases List.mem_cons.1 hx with h | h
      · obtain ⟨ha0, ha1⟩ := ha a (List.mem_cons_self _ _)
        obtain ⟨hb0, hb1⟩ := hb b (List.mem_cons_self _ _)
        rw [h]
        exact ⟨abs_nonneg _, abs_le.2 ⟨by linarith, by linarith⟩⟩
      · exact ih bt (fun z hz => ha z (List.mem_cons_of_mem _ hz))
          (fun z hz => hb z (List.mem_cons_of_mem _ hz)) x h

/-- C9: `ks_stat` returns exactly 0 when the (binary) labels are all of
one class; otherwise it returns the maximum absolute gap between the
cumulative positive-rate and negative-rate curves, a value lying in
`[0, 1]`. -/
theorem C9_ks_stat_boundary (yTrue yScore : List ℚ)
    (hlen : yTrue.length = yScore.length)
    (hbin : ∀ x ∈ yTrue, x = 0 ∨ x = 1) :
    (((∀ x ∈ yTrue, x = 0) ∨ (∀ x ∈ yTrue, x = 1)) →
      Metrics.ks_stat yTrue yScore = 0) ∧
    ((∃ x ∈ yTrue, x = 1) → (∃ x ∈ yTrue, x = 0) →
      Metrics.ks_stat yTrue yScore =
        Metrics.npMax (List.zipWith (fun a b => |a - b|)
          ((Metrics.cumSums (Metrics.labelsByScore yTrue yScore)).map
            (· / (Metrics.labelsByScore yTrue yScore).sum))
          ((Metrics.cumSums ((Metrics.labelsByScore yTrue yScore).map
              (fun v => 1 - v))).map
            (· / (((Metrics.labelsByScore yTrue yScore).length : ℚ) -
              (Metrics.labelsByScore yTrue yScore).sum)))) ∧
      0 ≤ Metrics.ks_stat yTrue yScore ∧
      Metrics.ks_stat yTrue yScore ≤ 1) := by
  have hperm := labelsByScore_perm yTrue yScore hlen
  set y := Metrics.labelsByScore yTrue yScore with hy
  have hmem : ∀ x ∈ y, x = 0 ∨ x = 1 := fun x hx => hbin x (hperm.mem_iff.1 hx)
  have hnonneg : ∀ x ∈ y, 0 ≤ x := by
    intro x hx
    rcases hmem x hx with h | h
    · rw [h]
    · rw [h]
      norm_num
  constructor
  · intro hone
    have hcond : y.sum = 0 ∨ ((y.length : ℚ) - y.sum) = 0 := by
      rcases hone with hall | hall
      · left
        exact List.sum_eq_zero (fun x hx => hall x (hperm.mem_iff.1 hx))
      · right
        rw [sum_eq_length_of_all_one y (fun x hx => hall x (hperm.mem_iff.1 hx))]
        ring
    unfold Metrics.ks_stat
    rw [← hy]
    rw [if_pos hcond]
  · intro h1 h0
    have hex1 : ∃ x ∈ y, x = 1 := by
      obtain ⟨x, hx, he⟩ := h1
      exact ⟨x, hperm.mem_iff.2 hx, he⟩
    have hex0 : ∃ x ∈ y, x = 0 := by
      obtain ⟨x, hx, he⟩ := h0
      exact ⟨x, hperm.mem_iff.2 hx, he⟩
    have hspos : 0 < y.sum := by
      obtain ⟨x, hx, hx1⟩ := hex1
      have := List.single_le_sum hnonneg x hx
      rw [hx1] at this
      linarith
    have hnpos : 0 < (y.length : ℚ) - y.sum := by
      obtain ⟨x, hx, hx0⟩ := hex0
      have hmem1 : (1 : ℚ) ∈ y.map (fun v => 1 - v) :=
        List.mem_map.2 ⟨x, hx, by rw [hx0]; norm_num⟩
      have hnn : ∀ z ∈ y.map (fun v => 1 - v), 0 ≤ z := by
        intro z hz
        obtain ⟨x', hx', he⟩ := List.mem_map.1 hz
        rcases hmem x' hx' with h | h <;> rw [← he, h] <;> norm_num
      have := List.single_le_sum hnn 1 hmem1
      rw [sum_one_sub y] at this
      linarith
    have hcond : ¬ (y.sum = 0 ∨ ((y.length : ℚ) - y.sum) = 0) := by
      rintro (h | h)
      · linarith
      · linarith
    have hbranch : Metrics.ks_stat yTrue yScore =
        Metrics.npMax (List.zipWith (fun a b => |a - b|)
          ((Metrics.cumSums y).map (· / y.sum))
          ((Metrics.cumSums (y.map (fun v => 1 - v))).map
            (· / ((y.length : ℚ) - y.sum)))) := by
      unfold Metrics.ks_stat
      rw [← hy]
      rw [if_neg hcond]
    refine ⟨hbranch, ?_⟩
    have hposbound : ∀ c ∈ (Metrics.cumSums y).map (· / y.sum),
        0 ≤ c ∧ c ≤ 1 := by
      intro c hc
      obtain ⟨c0, hc0, he⟩ := List.mem_map.1 hc
      have hb := cumSumsFrom_bounds y 0 hnonneg c0 hc0
      rw [← he]
      constructor
      · exact div_nonneg (by linarith [hb.1]) (le_of_lt hspos)
      · rw [div_le_one hspos]
        linarith [hb.2]
    have hnegbound : ∀ c ∈ (Metrics.cumSums (y.map (fun v => 1 - v))).map
        (· / ((y.length : ℚ) - y.sum)), 0 ≤ c ∧ c ≤ 1 := by
      intro c hc
      obtain ⟨c0, hc0, he⟩ := List.mem_map.1 hc
      have hnn : ∀ z ∈ y.map (fun v => 1 - v), 0 ≤ z := by
        intro z hz
        obtain ⟨x', hx', he'⟩ := List.mem_map.1 hz
        rcases hmem x' hx' with h | h <;> rw [← he', h] <;> norm_num
      have hb := cumSumsFrom_bounds (y.map (fun v => 1 - v)) 0 hnn c0 hc0
      rw [sum_one_sub y] at hb
      rw [← he]
      constructor
      · exact div_nonneg (by linarith [hb.1]) (le_of_lt hnpos)
      · rw [div_le_one hnpos]
        linarith [hb.2]
    have hyne : y ≠ [] := by
      obtain ⟨x, hx, -⟩ := hex1
      exact List.ne_nil_of_mem hx
    have hzne : List.zipWith (fun a b => |a - b|)
        ((Metrics.cumSums y).map (· / y.sum))
        ((Metrics.cumSums (y.map (fun v => 1 - v))).map
          (· / ((y.length : ℚ) - y.sum))) ≠ [] := by
      have hylen : 0 < y.length := List.length_pos.2 hyne
      have hl1 : ((Metrics.cumSums y).map (· / y.sum)).length = y.length := by
        rw [List.length_map, Metrics.cumSums, cumSumsFrom_length]
      have hl2 : ((Metrics.cumSums (y.map (fun v => 1 - v))).map
          (· / ((y.length : ℚ) - y.sum))).length = y.length := by
        rw [List.length_map, Metrics.cumSums, cumSumsFrom_length, List.length_map]
      apply List.ne_nil_of_length_pos
      rw [List.length_zipWith, hl1, hl2]
      omega
    have hbounds := npMax_bounds _ hzne
      (zipWith_abs_bounds _ _ hposbound hnegbound)
    rw [hbranch]
    exact hbounds

/-- Witness for C9: binary labels `[1, 0]` with scores `[1, 2]` contain
both classes and yield a KS statistic within `[0, 1]`. -/
theorem C9_ks_stat_boundary_witness :
    (∀ x ∈ [(1 : ℚ), 0], x = 0 ∨ x = 1) ∧
    0 ≤ Metrics.ks_stat [(1 : ℚ), 0] [(1 : ℚ), 2] ∧
    Metrics.ks_stat [(1 : ℚ), 0] [(1 : ℚ), 2] ≤ 1 := by
  have hbin : ∀ x ∈ [(1 : ℚ), 0], x = 0 ∨ x = 1 := by
    intro x hx
    rcases List.mem_cons.1 hx with h | h
    · exact Or.inr h
    · exact Or.inl (List.mem_singleton.1 h)
  have h := C9_ks_stat_boundary [(1 : ℚ), 0] [(1 : ℚ), 2] rfl hbin
  have h2 := h.2 ⟨1, List.mem_cons_self _ _, rfl⟩
    ⟨0, List.mem_cons_of_mem _ (List.mem_singleton.2 rfl), rfl⟩
  exact ⟨hbin, h2.2.1, h2.2.2⟩

end CredTech
